import Mathlib

/-!
Shallow embedding of the Streaming Tool-Augmented Conversation Engine
(railway-llm-template): the conversation orchestrator in
`src/server/src/agent/agent.service.ts`, the Redis-backed cache / rate-limit
layer (`RedisService`, `RateLimitGuard`), and the tool registry.

JavaScript values flowing through the engine are modelled by an inductive
JSON type (`Json`); numbers are modelled as integers (the repository only
ever caches integral numbers and the claims do not depend on float
semantics).  `JSON.stringify` / `JSON.parse` are modelled by `jsonStringify`
/ `jsonParse`.  Machine arithmetic in `simpleHash` is modelled on `Int` with
explicit 32-bit wrapping.
-/

namespace SignalBox

/-- Model of a JavaScript JSON value (`JSON.parse` output / `JSON.stringify`
input).  Object fields keep insertion order, as JS objects do. -/
inductive Json where
  | null : Json
  | bool (b : Bool) : Json
  | num (n : Int) : Json
  | str (s : String) : Json
  | arr (elems : List Json) : Json
  | obj (fields : List (String × Json)) : Json
deriving Repr, Inhabited

/-- Hex digit for code points, lowercase as emitted by `JSON.stringify`. -/
def hexDigit (n : Nat) : Char :=
  if n < 10 then Char.ofNat (48 + n) else Char.ofNat (87 + n)

/-- Escape one character as `JSON.stringify` does inside a string literal. -/
def escapeChar (c : Char) : List Char :=
  if c = '"' then ['\\', '"']
  else if c = '\\' then ['\\', '\\']
  else if c = '\n' then ['\\', 'n']
  else if c = '\t' then ['\\', 't']
  else if c = '\r' then ['\\', 'r']
  else if c = '\x08' then ['\\', 'b']
  else if c = '\x0c' then ['\\', 'f']
  else if c.toNat < 32 then
    ['\\', 'u', '0', '0', hexDigit (c.toNat / 16), hexDigit (c.toNat % 16)]
  else [c]

/-- Quote and escape a string as a JSON string literal. -/
def quoteString (s : String) : String :=
  ⟨'"' :: (s.data.flatMap escapeChar) ++ ['"']⟩

mutual

/-- Model of `JSON.stringify` (without replacer). -/
def jsonStringify : Json → String
  | .null => "null"
  | .bool true => "true"
  | .bool false => "false"
  | .num n => toString n
  | .str s => quoteString s
  | .arr xs => "[" ++ stringifyElems xs ++ "]"
  | .obj kvs => "\x7b" ++ stringifyFields kvs ++ "\x7d"

/-- Comma-joined serialization of array elements. -/
def stringifyElems : List Json → String
  | [] => ""
  | [x] => jsonStringify x
  | x :: y :: xs => jsonStringify x ++ "," ++ stringifyElems (y :: xs)

/-- Comma-joined serialization of object fields. -/
def stringifyFields : List (String × Json) → String
  | [] => ""
  | [(k, v)] => quoteString k ++ ":" ++ jsonStringify v
  | (k, v) :: f :: xs =>
      quoteString k ++ ":" ++ jsonStringify v ++ "," ++ stringifyFields (f :: xs)

end

/-- JSON insignificant whitespace. -/
def isJsonWs (c : Char) : Bool :=
  c = ' ' || c = '\n' || c = '\t' || c = '\r'

/-- Drop leading JSON whitespace. -/
def skipWs : List Char → List Char
  | [] => []
  | c :: cs => if isJsonWs c then skipWs cs else c :: cs

/-- Value of a hex digit, if any. -/
def hexVal (c : Char) : Option Nat :=
  if '0' ≤ c ∧ c ≤ '9' then some (c.toNat - 48)
  else if 'a' ≤ c ∧ c ≤ 'f' then some (c.toNat - 87)
  else if 'A' ≤ c ∧ c ≤ 'F' then some (c.toNat - 55)
  else none

/-- Parse the body of a JSON string literal (after the opening quote),
returning the decoded string and the rest of the input.  Unescaped control
characters are rejected, as `JSON.parse` rejects them. -/
def parseStringBody (acc : List Char) : List Char → Option (String × List Char)
  | '"' :: rest => some (⟨acc.reverse⟩, rest)
  | '\\' :: 'n' :: rest => parseStringBody ('\n' :: acc) rest
  | '\\' :: 't' :: rest => parseStringBody ('\t' :: acc) rest
  | '\\' :: 'r' :: rest => parseStringBody ('\r' :: acc) rest
  | '\\' :: 'b' :: rest => parseStringBody ('\x08' :: acc) rest
  | '\\' :: 'f' :: rest => parseStringBody ('\x0c' :: acc) rest
  | '\\' :: '"' :: rest => parseStringBody ('"' :: acc) rest
  | '\\' :: '\\' :: rest => parseStringBody ('\\' :: acc) rest
  | '\\' :: '/' :: rest => parseStringBody ('/' :: acc) rest
  | '\\' :: 'u' :: a :: b :: c :: d :: rest =>
      match hexVal a, hexVal b, hexVal c, hexVal d with
      | some x, some y, some z, some w =>
          parseStringBody (Char.ofNat (x * 4096 + y * 256 + z * 16 + w) :: acc) rest
      | _, _, _, _ => none
  | '\\' :: _ => none
  | c :: rest => if c.toNat < 32 then none else parseStringBody (c :: acc) rest
  | [] => none

/-- Parse a run of decimal digits (reversed accumulation of their values). -/
def parseDigits (acc : Nat) : List Char → Nat → (Nat × List Char)
  | c :: rest, n + 1 =>
      if '0' ≤ c ∧ c ≤ '9' then parseDigits (acc * 10 + (c.toNat - 48)) rest n
      else (acc, c :: rest)
  | cs, _ => (acc, cs)

mutual

/-- Fueled recursive-descent parser for a JSON value (model of `JSON.parse`;
numbers are modelled as integers, matching every value this repository
serializes). -/
def parseValue : Nat → List Char → Option (Json × List Char)
  | 0, _ => none
  | fuel + 1, cs =>
    match skipWs cs with
    | 'n' :: 'u' :: 'l' :: 'l' :: rest => some (.null, rest)
    | 't' :: 'r' :: 'u' :: 'e' :: rest => some (.bool true, rest)
    | 'f' :: 'a' :: 'l' :: 's' :: 'e' :: rest => some (.bool false, rest)
    | '"' :: rest => (parseStringBody [] rest).map (fun p => (.str p.1, p.2))
    | '[' :: rest => parseElems fuel (skipWs rest)
    | '{' :: rest => parseFields fuel (skipWs rest)
    | '-' :: c :: rest =>
        if '0' ≤ c ∧ c ≤ '9' then
          let p := parseDigits (c.toNat - 48) rest rest.length
          some (.num (-(p.1 : Int)), p.2)
        else none
    | c :: rest =>
        if '0' ≤ c ∧ c ≤ '9' then
          let p := parseDigits (c.toNat - 48) rest rest.length
          some (.num (p.1 : Int), p.2)
        else none
    | [] => none

/-- Parse array elements after `[` (leading whitespace already skipped). -/
def parseElems : Nat → List Char → Option (Json × List Char)
  | 0, _ => none
  | _ + 1, ']' :: rest => some (.arr [], rest)
  | fuel + 1, cs => do
      let (v, rest) ← parseValue fuel cs
      parseElemsTail fuel [v] (skipWs rest)

/-- Parse `, value`* `]` after at least one array element. -/
def parseElemsTail : Nat → List Json → List Char → Option (Json × List Char)
  | 0, _, _ => none
  | _ + 1, acc, ']' :: rest => some (.arr acc.reverse, rest)
  | fuel + 1, acc, ',' :: rest => do
      let (v, rest') ← parseValue fuel rest
      parseElemsTail fuel (v :: acc) (skipWs rest')
  | _ + 1, _, _ => none

/-- Parse object fields after `{` (leading whitespace already skipped). -/
def parseFields : Nat → List Char → Option (Json × List Char)
  | 0, _ => none
  | _ + 1, '}' :: rest => some (.obj [], rest)
  | fuel + 1, '"' :: rest => do
      let (k, rest') ← parseStringBody [] rest
      match skipWs rest' with
      | ':' :: rest'' => do
          let (v, rest''') ← parseValue fuel rest''
          parseFieldsTail fuel [(k, v)] (skipWs rest''')
      | _ => none
  | _ + 1, _ => none

/-- Parse `, "key": value`* `}` after at least one object field. -/
def parseFieldsTail : Nat → List (String × Json) → List Char →
    Option (Json × List Char)
  | 0, _, _ => none
  | _ + 1, acc, '}' :: rest => some (.obj acc.reverse, rest)
  | fuel + 1, acc, ',' :: rest =>
      match skipWs rest with
      | '"' :: rest' => do
          let (k, rest'') ← parseStringBody [] rest'
          match skipWs rest'' with
          | ':' :: rest''' => do
              let (v, rest'''') ← parseValue fuel rest'''
              parseFieldsTail fuel ((k, v) :: acc) (skipWs rest'''')
          | _ => none
      | _ => none
  | _ + 1, _, _ => none

end

/-- Model of `JSON.parse`: parse one value and require only trailing
whitespace after it. -/
def jsonParse (s : String) : Option Json :=
  match parseValue (2 * s.length + 4) s.data with
  | some (v, rest) => if skipWs rest = [] then some v else none
  | none => none

/-! ## JavaScript value semantics helpers -/

/-- JS truthiness of a JSON value (`null`, `false`, `0`, `""` are falsy). -/
def Json.truthy : Json → Bool
  | .null => false
  | .bool b => b
  | .num n => n != 0
  | .str s => s != ""
  | .arr _ => true
  | .obj _ => true

/-- Property access `j.k` on a JSON value (objects only; `undefined`
elsewhere, modelled as `none`). -/
def Json.getField (j : Json) (k : String) : Option Json :=
  match j with
  | .obj kvs => kvs.lookup k
  | _ => none

/-- `result && typeof result === 'object' && !(result as any).error`: the
condition under which `agent.service.ts` writes a tool result through to the
tool-result cache. -/
def cacheableResult (r : Json) : Bool :=
  r.truthy &&
    (match r with | .arr _ => true | .obj _ => true | _ => false) &&
    !(match r.getField "error" with | some v => v.truthy | none => false)

/-- Wrap an integer to JS 32-bit two's-complement (`| 0` / `& same`). -/
def toInt32 (n : Int) : Int := (n + 2 ^ 31) % 2 ^ 32 - 2 ^ 31

/-- One step of `simpleHash`: `hash = ((hash << 5) - hash) + char; hash &= hash`. -/
def hashStep (h : Int) (c : Nat) : Int := toInt32 (toInt32 (h * 32) - h + c)

/-- UTF-16 code units of one character. -/
def charUnits (c : Char) : List Nat :=
  let n := c.toNat
  if n < 0x10000 then [n]
  else [0xD800 + (n - 0x10000) / 0x400, 0xDC00 + (n - 0x10000) % 0x400]

/-- UTF-16 code units of a string (`charCodeAt` sequence). -/
def utf16Units (s : String) : List Nat :=
  s.data.flatMap charUnits

/-- `simpleHash` from both `agent.service.ts` and `redis.service.ts`:
a 32-bit rolling hash rendered as lowercase hex of its absolute value. -/
def simpleHash (s : String) : String :=
  ⟨Nat.toDigits 16 ((utf16Units s).foldl hashStep 0).natAbs⟩

/-- Select the fields named in `allow` (first occurrence, PropertyList
order, duplicates in the list ignored). -/
def reorderFilter (allow : List String) (kvs : List (String × Json)) :
    List (String × Json) :=
  allow.dedup.filterMap fun k => (kvs.lookup k).map fun v => (k, v)

mutual

/-- Prune a JSON value to the properties whose names occur in `allow`,
recursively — the effect of passing an array replacer to `JSON.stringify`
(ECMA-262 SerializeJSONObject with a PropertyList): at every object, only
listed properties survive, emitted in PropertyList order. -/
def prune (allow : List String) : Json → Json
  | .null => .null
  | .bool b => .bool b
  | .num n => .num n
  | .str s => .str s
  | .arr xs => .arr (pruneList allow xs)
  | .obj kvs => .obj (reorderFilter allow (pruneFields allow kvs))

/-- Prune every element of an array. -/
def pruneList (allow : List String) : List Json → List Json
  | [] => []
  | x :: xs => prune allow x :: pruneList allow xs

/-- Prune every field value of an object (keys and order untouched). -/
def pruneFields (allow : List String) : List (String × Json) →
    List (String × Json)
  | [] => []
  | (k, v) :: kvs => (k, prune allow v) :: pruneFields allow kvs

end

/-- `JSON.stringify(v, allow)` with an array replacer. -/
def jsonStringifyWith (allow : List String) (v : Json) : String :=
  jsonStringify (prune allow v)

/-- `Object.keys` of a JSON object (insertion order). -/
def jsObjectKeys : Json → List String
  | .obj kvs => kvs.map Prod.fst
  | _ => []

/-- Strict UTF-16 code-unit lexicographic comparison (the order
`Array.prototype.sort()` uses with no comparator). -/
def jsLtUnits : List Nat → List Nat → Bool
  | [], [] => false
  | [], _ :: _ => true
  | _ :: _, [] => false
  | a :: as, b :: bs =>
      if a < b then true else if b < a then false else jsLtUnits as bs

/-- JS default string comparison. -/
def jsStrLt (a b : String) : Bool := jsLtUnits (utf16Units a) (utf16Units b)

/-- The non-strict order the key sort establishes. -/
def jsStrLe (a b : String) : Prop := jsStrLt b a = false

instance : DecidableRel jsStrLe :=
  fun a b => instDecidableEqBool (jsStrLt b a) false

/-- Code-unit comparison is asymmetric. -/
theorem jsLtUnits_asymm :
    ∀ u v, jsLtUnits u v = true → jsLtUnits v u = false := by
  intro u
  induction u with
  | nil => intro v h; cases v <;> simp_all [jsLtUnits]
  | cons a as ih =>
      intro v h
      cases v with
      | nil => simp [jsLtUnits] at h
      | cons b bs =>
          simp only [jsLtUnits] at h ⊢
          by_cases h1 : a < b
          · simp [h1, Nat.lt_asymm h1, Nat.ne_of_lt h1]
          · by_cases h2 : b < a
            · simp [h1, h2] at h
            · have hab : a = b := Nat.le_antisymm (Nat.le_of_not_lt h2)
                (Nat.le_of_not_lt h1)
              simp only [h1, if_false, h2, if_false] at h
              simp [hab, Nat.lt_irrefl, ih bs h]

/-- Mutually non-less code-unit lists are equal. -/
theorem jsLtUnits_eq_of_not :
    ∀ u v, jsLtUnits u v = false → jsLtUnits v u = false → u = v := by
  intro u
  induction u with
  | nil => intro v h1 h2; cases v <;> simp_all [jsLtUnits]
  | cons a as ih =>
      intro v h1 h2
      cases v with
      | nil => simp [jsLtUnits] at h2
      | cons b bs =>
          simp only [jsLtUnits] at h1 h2
          by_cases hab : a < b
          · simp [hab] at h1
          · by_cases hba : b < a
            · simp [hba, Nat.lt_asymm hba] at h2
            · have : a = b := Nat.le_antisymm (Nat.le_of_not_lt hba)
                (Nat.le_of_not_lt hab)
              subst this
              simp only [Nat.lt_irrefl, if_false] at h1 h2
              rw [ih bs h1 h2]

/-- Not-less is transitive on code-unit lists. -/
theorem jsLtUnits_negtrans :
    ∀ u v w, jsLtUnits v u = false → jsLtUnits w v = false →
      jsLtUnits w u = false := by
  intro u
  induction u with
  | nil =>
      intro v w h1 h2
      cases w <;> simp [jsLtUnits]
  | cons a as ih =>
      intro v w h1 h2
      cases v with
      | nil => simp [jsLtUnits] at h1
      | cons b bs =>
          cases w with
          | nil => simp [jsLtUnits] at h2
          | cons c cs =>
              simp only [jsLtUnits] at h1 h2 ⊢
              by_cases hba : b < a
              · simp [hba] at h1
              · by_cases hcb : c < b
                · simp [hcb] at h2
                · by_cases hca : c < a
                  · exact absurd hca (by omega)
                  · by_cases hac : a < c
                    · simp [hca, hac]
                    · have hab : ¬ a < b := by omega
                      have hbc : ¬ b < c := by omega
                      rw [if_neg hba, if_neg hab] at h1
                      rw [if_neg hcb, if_neg hbc] at h2
                      simp [hca, hac, ih bs cs h1 h2]

/-- A character contributes at least one code unit. -/
theorem charUnits_ne_nil (c : Char) : charUnits c ≠ [] := by
  unfold charUnits
  by_cases h : c.toNat < 0x10000 <;> simp [h]

/-- A character is determined by its code units (as a prefix). -/
theorem charUnits_append_inj (c d : Char) (r1 r2 : List Nat)
    (h : charUnits c ++ r1 = charUnits d ++ r2) : c = d ∧ r1 = r2 := by
  have hc : c.val.toNat < 0xd800 ∨
      (0xdfff < c.val.toNat ∧ c.val.toNat < 0x110000) := c.valid
  have hd : d.val.toNat < 0xd800 ∨
      (0xdfff < d.val.toNat ∧ d.val.toNat < 0x110000) := d.valid
  have hct : c.toNat = c.val.toNat := rfl
  have hdt : d.toNat = d.val.toNat := rfl
  unfold charUnits at h
  by_cases h1 : c.toNat < 0x10000 <;> by_cases h2 : d.toNat < 0x10000 <;>
    simp only [h1, h2, if_true, if_false] at h
  · have hu : c.toNat = d.toNat := by
      have := congrArg List.head? h
      simpa using this
    have hr : r1 = r2 := by
      have := congrArg List.tail h
      simpa using this
    exact ⟨Char.eq_of_val_eq (UInt32.toNat.inj hu), hr⟩
  · exfalso
    have hu : c.toNat = 0xD800 + (d.toNat - 0x10000) / 0x400 := by
      have := congrArg List.head? h
      simpa using this
    omega
  · exfalso
    have hu : 0xD800 + (c.toNat - 0x10000) / 0x400 = d.toNat := by
      have := congrArg List.head? h
      simpa using this
    omega
  · have hu1 : 0xD800 + (c.toNat - 0x10000) / 0x400 =
        0xD800 + (d.toNat - 0x10000) / 0x400 := by
      have := congrArg List.head? h
      simpa using this
    have hu2 : 0xDC00 + (c.toNat - 0x10000) % 0x400 =
        0xDC00 + (d.toNat - 0x10000) % 0x400 := by
      have := congrArg (fun l => List.head? (List.tail l)) h
      simpa using this
    have hr : r1 = r2 := by
      have := congrArg (fun l => List.tail (List.tail l)) h
      simpa using this
    have hu : c.toNat = d.toNat := by omega
    exact ⟨Char.eq_of_val_eq (UInt32.toNat.inj hu), hr⟩

/-- A character list is determined by its flattened code units. -/
theorem flatMap_charUnits_inj :
    ∀ (l1 l2 : List Char),
      l1.flatMap charUnits = l2.flatMap charUnits → l1 = l2 := by
  intro l1
  induction l1 with
  | nil =>
      intro l2 h
      cases l2 with
      | nil => rfl
      | cons d ds =>
          exfalso
          simp only [List.flatMap_nil, List.flatMap_cons] at h
          exact charUnits_ne_nil d (List.append_eq_nil.mp h.symm).1
  | cons c cs ih =>
      intro l2 h
      cases l2 with
      | nil =>
          exfalso
          simp only [List.flatMap_nil, List.flatMap_cons] at h
          exact charUnits_ne_nil c (List.append_eq_nil.mp h).1
      | cons d ds =>
          simp only [List.flatMap_cons] at h
          obtain ⟨hcd, hrest⟩ := charUnits_append_inj c d _ _ h
          rw [hcd, ih ds hrest]

/-- Strings are determined by their UTF-16 code units. -/
theorem utf16Units_injective (a b : String)
    (h : utf16Units a = utf16Units b) : a = b := by
  cases a with
  | mk da =>
      cases b with
      | mk db =>
          simp only [utf16Units] at h
          exact congrArg String.mk (flatMap_charUnits_inj da db h)

instance : IsTotal String jsStrLe :=
  ⟨fun a b => by
    unfold jsStrLe jsStrLt
    cases h : jsLtUnits (utf16Units b) (utf16Units a) with
    | false => exact Or.inl rfl
    | true => exact Or.inr (jsLtUnits_asymm _ _ h)⟩

instance : IsTrans String jsStrLe :=
  ⟨fun _ _ _ h1 h2 => jsLtUnits_negtrans _ _ _ h1 h2⟩

instance : IsAntisymm String jsStrLe :=
  ⟨fun a b h1 h2 =>
    utf16Units_injective a b (jsLtUnits_eq_of_not _ _ h2 h1)⟩

/-- `RedisService.generateToolCacheKey`: a stable hash of the tool
arguments, `JSON.stringify(args, Object.keys(args).sort())` fed through
`simpleHash`.  (The tool name is not part of the hash; it is prefixed onto
the cache key by the get/set methods.) -/
def generateToolCacheKey (_toolName : String) (args : Json) : String :=
  simpleHash (jsonStringifyWith ((jsObjectKeys args).insertionSort jsStrLe) args)

/-! ## Redis store model

The remote key-value store is modelled as an association list from keys to
entries with an optional absolute expiry second.  A key whose expiry has
passed behaves exactly like an absent key.  Stored values are strings or
integers (`RVal`): the defensive non-string branch of the cache read path is
reachable through integer-valued entries. -/

/-- A stored Redis value. -/
inductive RVal where
  | rstr (s : String)
  | rint (n : Int)
deriving Repr, DecidableEq

/-- JS truthiness of a value returned by the store. -/
def RVal.truthy : RVal → Bool
  | .rstr s => s != ""
  | .rint n => n != 0

/-- One key's entry: value plus optional absolute expiry time (seconds). -/
structure Entry where
  value : RVal
  expiry : Option Nat
deriving Repr, DecidableEq

/-- The store contents. -/
abbrev Store := List (String × Entry)

/-- Is the entry alive at time `now`? -/
def Entry.live (e : Entry) (now : Nat) : Bool :=
  match e.expiry with
  | some t => now < t
  | none => true

/-- `GET key`: the value, unless absent or expired. -/
def storeGet (st : Store) (now : Nat) (key : String) : Option RVal :=
  match st.lookup key with
  | some e => if e.live now then some e.value else none
  | none => none

/-- Remove a key outright. -/
def storeDel (st : Store) (key : String) : Store :=
  st.filter fun kv => kv.1 != key

/-- `SET key value` (no TTL: persistent). -/
def storeSet (st : Store) (key : String) (v : RVal) : Store :=
  (key, ⟨v, none⟩) :: storeDel st key

/-- `SETEX key ttl value`. -/
def storeSetex (st : Store) (now : Nat) (key : String) (ttl : Nat) (v : RVal) :
    Store :=
  (key, ⟨v, some (now + ttl)⟩) :: storeDel st key

/-- Decimal integer reading for `INCR` on a string-valued counter. -/
def decToInt (s : String) : Option Int :=
  match jsonParse s with
  | some (.num n) => some n
  | _ => none

/-- `INCR key`: absent/expired key becomes a fresh `1` with no TTL;
otherwise the counter is bumped and its TTL is preserved.  Counters are held
as integers (Redis holds numeric strings; only `getRateLimitInfo`\x27s unused
`count` field could observe the difference). -/
def storeIncr (st : Store) (now : Nat) (key : String) : Int × Store :=
  match st.lookup key with
  | some e =>
      if e.live now then
        let n := (match e.value with
          | .rint m => m
          | .rstr s => (decToInt s).getD 0) + 1
        (n, (key, ⟨.rint n, e.expiry⟩) :: storeDel st key)
      else (1, storeSet st key (.rint 1))
  | none => (1, storeSet st key (.rint 1))

/-- `EXPIRE key ttl` (only has effect on a live key). -/
def storeExpire (st : Store) (now : Nat) (key : String) (ttl : Nat) : Store :=
  match st.lookup key with
  | some e =>
      if e.live now then (key, ⟨e.value, some (now + ttl)⟩) :: storeDel st key
      else st
  | none => st

/-- `TTL key`: remaining seconds, `-1` for no expiry, `-2` for absent. -/
def storeTtl (st : Store) (now : Nat) (key : String) : Int :=
  match st.lookup key with
  | some e =>
      if e.live now then
        match e.expiry with
        | some t => (t : Int) - now
        | none => -1
      else -2
  | none => -2

/-- `EXISTS key`. -/
def storeExists (st : Store) (now : Nat) (key : String) : Bool :=
  (storeGet st now key).isSome

/-- The `RedisService` backend: `disabled` models a missing/unreachable
configuration at startup (`isEnabled = false`, every operation degrades to a
default), `up` a healthy connection over a `Store`, and `down` a connection
whose underlying operations all raise. -/
inductive Backend where
  | disabled
  | up (st : Store)
  | down
deriving Repr, DecidableEq

/-! ### RedisService methods (redis.service.ts) -/

/-- `RedisService.get`: `null` when disabled; rethrows store errors. -/
def rsGet (b : Backend) (now : Nat) (key : String) :
    Except Unit (Option RVal) :=
  match b with
  | .disabled => .ok none
  | .down => .error ()
  | .up st => .ok (storeGet st now key)

/-- `RedisService.incr`: `0` when disabled; rethrows store errors. -/
def rsIncr (b : Backend) (now : Nat) (key : String) :
    Except Unit (Int × Backend) :=
  match b with
  | .disabled => .ok (0, b)
  | .down => .error ()
  | .up st =>
      let p := storeIncr st now key
      .ok (p.1, .up p.2)

/-- `RedisService.exists`: `false` when disabled; rethrows store errors. -/
def rsExists (b : Backend) (now : Nat) (key : String) : Except Unit Bool :=
  match b with
  | .disabled => .ok false
  | .down => .error ()
  | .up st => .ok (storeExists st now key)

/-- The window-counter key of an identifier. -/
def rateLimitKey (identifier : String) : String := "rate_limit:" ++ identifier

/-- The block-flag key of an identifier. -/
def blockedKey (identifier : String) : String := "blocked:" ++ identifier

/-- `RedisService.incrementRateLimit`: INCR the window counter and set the
window TTL only on the very first increment; `{count: 0, isFirstRequest:
true}` when disabled; rethrows store errors. -/
def incrementRateLimit (b : Backend) (now : Nat) (identifier : String)
    (windowSeconds : Nat) : Except Unit ((Int × Bool) × Backend) :=
  match b with
  | .disabled => .ok ((0, true), b)
  | .down => .error ()
  | .up st =>
      let key := rateLimitKey identifier
      let p := storeIncr st now key
      let count := p.1
      let isFirstRequest := count == 1
      let st2 := if isFirstRequest then storeExpire p.2 now key windowSeconds
                 else p.2
      .ok ((count, isFirstRequest), .up st2)

/-- `RedisService.getRateLimitInfo`: current window counter and TTL;
zeroes when disabled; rethrows store errors. -/
def getRateLimitInfo (b : Backend) (now : Nat) (identifier : String) :
    Except Unit (Int × Int) :=
  match b with
  | .disabled => .ok (0, 0)
  | .down => .error ()
  | .up st =>
      let key := rateLimitKey identifier
      let count := match storeGet st now key with
        | some (.rstr s) => if s != "" then (decToInt s).getD 0 else 0
        | _ => 0
      .ok (count, storeTtl st now key)

/-- `RedisService.setBlock`: `SETEX blocked:<id> duration "1"`; no-op when
disabled; rethrows store errors. -/
def setBlock (b : Backend) (now : Nat) (identifier : String)
    (durationSeconds : Nat) : Except Unit Backend :=
  match b with
  | .disabled => .ok b
  | .down => .error ()
  | .up st =>
      .ok (.up (storeSetex st now (blockedKey identifier) durationSeconds
        (.rstr "1")))

/-- `RedisService.getBlockInfo`: blocked flag and remaining TTL; catches its
own errors, degrading to `{isBlocked: false, ttl: 0}`. -/
def getBlockInfo (b : Backend) (now : Nat) (identifier : String) :
    Bool × Int :=
  match b with
  | .disabled => (false, 0)
  | .down => (false, 0)
  | .up st =>
      let key := blockedKey identifier
      (storeExists st now key, storeTtl st now key)

/-- `String.prototype.startsWith`. -/
def jsStartsWith (s p : String) : Bool := p.data.isPrefixOf s.data

/-- The shared cache read path of `getCachedResponse` /
`getCachedToolResult`: missing or falsy value → miss; truthy non-string →
purge and miss; corrupt-serialization sentinel or unparseable JSON → purge
and miss; otherwise the parsed value.  Store errors are caught and yield a
miss. -/
def cacheReadPath (b : Backend) (now : Nat) (key : String) :
    Option Json × Backend :=
  match b with
  | .disabled => (none, b)
  | .down => (none, b)
  | .up st =>
      match storeGet st now key with
      | none => (none, b)
      | some v =>
          if !v.truthy then (none, b)
          else
            match v with
            | .rint _ => (none, .up (storeDel st key))
            | .rstr s =>
                if s == "[object Object]" || jsStartsWith s "[object " then
                  (none, .up (storeDel st key))
                else
                  match jsonParse s with
                  | some j => (some j, .up st)
                  | none => (none, .up (storeDel st key))

/-- The shared cache write path of `setCachedResponse` /
`setCachedToolResult`: serialize, skip the write on a sentinel-producing
serialization, never throw.  (`JSON.stringify` returning `undefined` cannot
arise for a `Json` value.) -/
def cacheWritePath (b : Backend) (now : Nat) (key : String) (data : Json)
    (ttlSeconds : Nat) : Backend :=
  match b with
  | .disabled => b
  | .down => b
  | .up st =>
      let s := jsonStringify data
      if s == "[object Object]" then b
      else .up (storeSetex st now key ttlSeconds (.rstr s))

/-- `RedisService.getCachedResponse`. -/
def getCachedResponse (b : Backend) (now : Nat) (cacheKey : String) :
    Option Json × Backend :=
  cacheReadPath b now cacheKey

/-- `RedisService.setCachedResponse`. -/
def setCachedResponse (b : Backend) (now : Nat) (cacheKey : String)
    (data : Json) (ttlSeconds : Nat) : Backend :=
  cacheWritePath b now cacheKey data ttlSeconds

/-- Cache key of a tool result: `tool_result:<toolName>:<argsHash>`. -/
def toolResultKey (toolName argsHash : String) : String :=
  "tool_result:" ++ toolName ++ ":" ++ argsHash

/-- `RedisService.getCachedToolResult`. -/
def getCachedToolResult (b : Backend) (now : Nat)
    (toolName argsHash : String) : Option Json × Backend :=
  cacheReadPath b now (toolResultKey toolName argsHash)

/-- `RedisService.setCachedToolResult`. -/
def setCachedToolResult (b : Backend) (now : Nat)
    (toolName argsHash : String) (result : Json) (ttlSeconds : Nat) :
    Backend :=
  cacheWritePath b now (toolResultKey toolName argsHash) result ttlSeconds

/-! ## Rate admission guard (rate-limit.guard.ts) -/

/-- Guard configuration (`RATE_LIMIT_*` environment entries). -/
structure RateCfg where
  enabled : Bool := true
  maxRequests : Nat := 20
  windowSeconds : Nat := 300
  blockDurationSeconds : Nat := 900
deriving Repr, DecidableEq

/-- `checkRateLimit`'s result record. -/
structure RateLimitResult where
  allowed : Bool
  blocked : Bool
  remaining : Int
  resetTime : Int
  blockExpiresAt : Option Int := none
deriving Repr, DecidableEq

/-- `RateLimitGuard.checkRateLimit`: consult the block flag, then bump the
window counter; errors from the store (via `incrementRateLimit` /
`getRateLimitInfo`) propagate to the caller. -/
def checkRateLimit (cfg : RateCfg) (b : Backend) (now : Nat)
    (identifier : String) : Except Unit (RateLimitResult × Backend) := do
  let blockInfo := getBlockInfo b now identifier
  if blockInfo.1 then
    return ({ allowed := false, blocked := true, remaining := 0,
              resetTime := (now : Int) * 1000 + blockInfo.2 * 1000,
              blockExpiresAt := some (blockInfo.2 * 1000) }, b)
  let r ← incrementRateLimit b now identifier cfg.windowSeconds
  let count := r.1.1
  let isFirstRequest := r.1.2
  let b := r.2
  let allowed := count ≤ (cfg.maxRequests : Int)
  let remaining := max 0 ((cfg.maxRequests : Int) - count)
  let resetTime ←
    if isFirstRequest then
      pure ((now : Int) * 1000 + (cfg.windowSeconds : Int) * 1000)
    else do
      let info ← getRateLimitInfo b now identifier
      pure ((now : Int) * 1000 + info.2 * 1000)
  return ({ allowed, blocked := false, remaining, resetTime }, b)

/-- Outcome of `RateLimitGuard.canActivate`: admission (with rate-limit
headers when a check ran) or a 429 rejection carrying `retryAfter`. -/
inductive AdmitOutcome where
  | admitted (headers : Option (Int × Int))
  | rejected (retryAfter : Int)
deriving Repr, DecidableEq

/-- `Math.ceil (a / b)` on integers for positive `b`. -/
def jsCeilDiv (a b : Int) : Int := -((-a) / b)

/-- `RateLimitGuard.canActivate`: disabled guard admits; a blocked client is
rejected with the remaining block seconds; a post-increment count above the
maximum sets a block and rejects with `retryAfter = blockDurationSeconds`;
otherwise admit with `X-RateLimit-*` headers.  Any store error that reaches
`canActivate` fails open (admit). -/
def canActivate (cfg : RateCfg) (b : Backend) (now : Nat)
    (identifier : String) : AdmitOutcome × Backend :=
  if !cfg.enabled then (.admitted none, b)
  else
    match checkRateLimit cfg b now identifier with
    | .error _ => (.admitted none, b)
    | .ok (result, b') =>
        if result.blocked then
          (.rejected (jsCeilDiv ((result.blockExpiresAt.getD 0)) 1000), b')
        else if !result.allowed then
          match setBlock b' now identifier cfg.blockDurationSeconds with
          | .error _ => (.admitted none, b')
          | .ok b'' => (.rejected (cfg.blockDurationSeconds : Int), b'')
        else
          (.admitted (some (result.remaining, result.resetTime)), b')

/-- The window-counter state after `k` requests of one window: counter `k`
under the window expiry stamped by the first request. -/
def windowState (id : String) (st0 : Store) (expiry : Nat) (k : Int) :
    Store :=
  (rateLimitKey id, ⟨.rint k, some expiry⟩) :: storeDel st0 (rateLimitKey id)

/-- `n` consecutive guard admissions of one identifier at one instant,
threading the store state and collecting the outcomes in request order. -/
def guardRun (cfg : RateCfg) (b : Backend) (t : Nat) (id : String) :
    Nat → List AdmitOutcome × Backend
  | 0 => ([], b)
  | n + 1 =>
      let p := canActivate cfg b t id
      let q := guardRun cfg p.2 t id n
      (p.1 :: q.1, q.2)

/-! ## Conversation data model and history conversion (agent.service.ts) -/

/-- A tool call requested by the completion model (id, function name, raw
JSON arguments string). -/
structure ToolCall where
  id : String
  name : String
  arguments : String
deriving Repr, DecidableEq

/-- A conversation-history role; `data` is the extra role the UI may send,
relabeled `assistant` before filtering. -/
inductive Role where
  | user
  | assistant
  | system
  | tool
  | data
deriving Repr, DecidableEq

/-- A `ConversationMessage`. -/
structure ConvMsg where
  role : Role
  content : Option String
  tool_calls : Option (List ToolCall) := none
  tool_call_id : Option String := none
  timestamp : Option String := none
deriving Repr, DecidableEq

/-- JS truthiness of an optional string (`undefined`/`null`/`""` falsy). -/
def strTruthy : Option String → Bool
  | some s => s != ""
  | none => false

/-- `a || b` for an optional string and a default. -/
def strOr (a : Option String) (dflt : String) : String :=
  match a with
  | some s => if s != "" then s else dflt
  | none => dflt

/-- A message in the completion-API shape produced by
`convertConversationToOpenAI`. -/
inductive OAIMsg where
  | user (content : Option String)
  | assistant (content : Option String) (tool_calls : Option (List ToolCall))
  | tool (content : Option String) (tool_call_id : Option String)
  | system (content : Option String)
deriving Repr, DecidableEq

/-- Preprocessing step: a `data`-role message is relabeled `assistant`. -/
def preprocessMsg (m : ConvMsg) : ConvMsg :=
  if m.role = .data then { m with role := .assistant } else m

/-- The filter of `convertConversationToOpenAI`: `user`/`tool` need truthy
content; `assistant` needs truthy content or a non-empty tool-call list;
everything else (i.e. `system`) is kept. -/
def keepMsg (m : ConvMsg) : Bool :=
  match m.role with
  | .user => strTruthy m.content
  | .tool => strTruthy m.content
  | .assistant =>
      strTruthy m.content ||
        (match m.tool_calls with
         | some l => decide (l.length > 0)
         | none => false)
  | _ => true

/-- The final mapping of `convertConversationToOpenAI` (the `data` case is
unreachable after preprocessing; the source throws there). -/
def toOpenAI (m : ConvMsg) : OAIMsg :=
  match m.role with
  | .user => .user m.content
  | .assistant =>
      .assistant (if strTruthy m.content then m.content else none) m.tool_calls
  | .tool => .tool m.content m.tool_call_id
  | .system => .system m.content
  | .data => .system m.content

/-- `convertConversationToOpenAI`: relabel `data` → `assistant`, filter,
then map to the completion-API message shape. -/
def convertConversationToOpenAI (history : List ConvMsg) : List OAIMsg :=
  (((history.map preprocessMsg).filter keepMsg).map toOpenAI)

/-! ## Tool registry and tool execution -/

/-- A registered tool: name, description, and an async `execute` that either
returns a JSON result or throws with a message. -/
structure Tool where
  name : String
  description : String
  execute : Json → Except String Json

/-- The tool registry (a `Map` keyed by name; later registration wins). -/
abbrev Registry := List Tool

/-- `ToolRegistry.getTool`. -/
def getTool (reg : Registry) (name : String) : Option Tool :=
  reg.reverse.find? fun t => t.name == name

/-- `{ ...toolArgs, userIp }`: the argument object passed to
`Tool.execute`.  An existing `userIp` property is overwritten in place;
otherwise the property is appended.  `undefined` is modelled as `null`
(only identity across calls matters). -/
def spreadUserIp (args : Json) (userIp : Option String) : Json :=
  let v : Json := match userIp with
    | some s => .str s
    | none => .null
  match args with
  | .obj kvs =>
      if (kvs.lookup "userIp").isSome then
        .obj (kvs.map fun kv => if kv.1 == "userIp" then (kv.1, v) else kv)
      else .obj (kvs ++ [("userIp", v)])
  | _ => .obj [("userIp", v)]

/-- The model string standing in for the JS runtime's `SyntaxError.message`
when `JSON.parse` on a tool call's arguments throws. -/
def jsonParseFailureMessage : String := "Unexpected token in JSON"

/-- `{error: "Unknown tool: <name>"}`. -/
def unknownToolResult (name : String) : Json :=
  .obj [("error", .str ("Unknown tool: " ++ name))]

/-- The error result recorded when a tool call throws. -/
def execErrorResult (toolName errMsg toolCallId : String) : Json :=
  .obj [("error", .str ("Error executing " ++ toolName ++ ": " ++ errMsg)),
        ("toolName", .str toolName),
        ("toolCallId", .str toolCallId)]

/-- Agent service configuration relevant to the claims. -/
structure AgentCfg where
  openaiConfigured : Bool := true
  mockEnabled : Bool := false
  mockData : Option Json := none
  maxIterations : Nat := 5
  isReasoningModel : Bool := false
  cacheEnabled : Bool := false
  cacheTtlSeconds : Nat := 300
  toolCacheEnabled : Bool := false
  toolCacheTtlSeconds : Nat := 600
  systemPrompt : String :=
    "You are SignalBox, a helpful, general-purpose AI assistant."

/-- Mutable context threaded through tool execution: the cache backend and
the trace of underlying `Tool.execute` invocations (tool name and the
argument object it received). -/
structure ExecCtx where
  backend : Backend
  trace : List (String × Json) := []
deriving Repr

/-- One buffered tool call (`executeToolCalls` body): unknown tool →
synthesized error; else tool-result-cache lookup (when enabled), executing
and write-through (non-error objects only) on a miss; a thrown execution is
captured as an error result. -/
def execOneCall (cfg : AgentCfg) (reg : Registry) (now : Nat)
    (userIp : Option String) (ctx : ExecCtx) (tc : ToolCall) :
    Json × ExecCtx :=
  match getTool reg tc.name with
  | none => (unknownToolResult tc.name, ctx)
  | some tool =>
      match jsonParse tc.arguments with
      | none =>
          (execErrorResult tc.name jsonParseFailureMessage tc.id, ctx)
      | some toolArgs =>
          let argsHash := generateToolCacheKey tc.name toolArgs
          let cachedLookup :=
            if cfg.toolCacheEnabled then
              getCachedToolResult ctx.backend now tc.name argsHash
            else (none, ctx.backend)
          let cached := cachedLookup.1
          let b := cachedLookup.2
          match cached with
          | some r =>
              if r.truthy then (r, { ctx with backend := b })
              else
                execFresh cfg now tc tool toolArgs argsHash userIp
                  { ctx with backend := b }
          | none =>
              execFresh cfg now tc tool toolArgs argsHash userIp
                { ctx with backend := b }
where
  /-- Cache miss: run `Tool.execute` and write through on success. -/
  execFresh (cfg : AgentCfg) (now : Nat) (tc : ToolCall) (tool : Tool)
      (toolArgs : Json) (argsHash : String) (userIp : Option String)
      (ctx : ExecCtx) : Json × ExecCtx :=
    let callArgs := spreadUserIp toolArgs userIp
    match tool.execute callArgs with
    | .error msg =>
        (execErrorResult tc.name msg tc.id,
         { ctx with trace := ctx.trace ++ [(tc.name, callArgs)] })
    | .ok r =>
        let b' :=
          if cfg.toolCacheEnabled && cacheableResult r then
            setCachedToolResult ctx.backend now tc.name argsHash r
              cfg.toolCacheTtlSeconds
          else ctx.backend
        (r, { backend := b', trace := ctx.trace ++ [(tc.name, callArgs)] })

/-- `executeToolCalls`: sequential execution of a turn's tool calls,
accumulating a result per call id. -/
def executeToolCalls (cfg : AgentCfg) (reg : Registry) (now : Nat)
    (userIp : Option String) (ctx : ExecCtx) (calls : List ToolCall) :
    List (String × Json) × ExecCtx :=
  match calls with
  | [] => ([], ctx)
  | tc :: rest =>
      let p := execOneCall cfg reg now userIp ctx tc
      let q := executeToolCalls cfg reg now userIp p.2 rest
      ((tc.id, p.1) :: q.1, q.2)

/-- JS object-map semantics on an association list built by repeated
assignment: the last binding of a key wins. -/
def jsLookup (l : List (String × Json)) (k : String) : Option Json :=
  l.reverse.lookup k

/-- `{ ...old, ...new }`: old keys keep their position (values updated),
genuinely new keys are appended in order. -/
def jsMergeAssoc (old new : List (String × Json)) :
    List (String × Json) :=
  (old.map fun kv =>
    match jsLookup new kv.1 with
    | some v => (kv.1, v)
    | none => kv) ++
  new.filter fun kv => (jsLookup old kv.1).isNone

/-! ## Buffered orchestrator loop (processConversationWithTools) -/

/-- An upstream completion-API failure, classified the way the entry-point
catch blocks classify an `APIError`. -/
inductive UpErr where
  | overloaded
  | badRequest
  | generic
deriving Repr, DecidableEq

/-- One buffered completion turn: the assistant message of
`response.choices[0]`. -/
structure BufTurn where
  content : Option String
  tool_calls : List ToolCall := []
deriving Repr

/-- The upstream completion API, one response per loop iteration (or a
thrown `APIError`). -/
abbrev BufOracle := Nat → Except UpErr BufTurn

/-- The fixed message used when the iteration ceiling leaves no assistant
content. -/
def maxToolCallsMessage : String := "I reached the maximum number of tool calls."

/-- Content at the iteration ceiling: the last `assistant` message of the
transcript if its content is a string, else the fixed ceiling message
(`currentMessages.filter(assistant).pop()` plus the `typeof` check). -/
def ceilingContent (msgs : List OAIMsg) : String :=
  match (msgs.filter fun m =>
      match m with | .assistant _ _ => true | _ => false).getLast? with
  | some (.assistant (some c) _) => c
  | _ => maxToolCallsMessage

/-- Result of the buffered loop. -/
structure BufLoopOut where
  result : Except UpErr (String × List (String × Json))
  messages : List OAIMsg
  upstreamCalls : Nat
  ctx : ExecCtx

/-- Result of one buffered loop iteration. -/
inductive BufStepRes where
  | done (content : String)
  | fail (e : UpErr)
  | next (msgs : List OAIMsg) (results : List (String × Json)) (ctx : ExecCtx)

/-- One iteration of the `while (iterations < maxIterations)` body of
`processConversationWithTools`: one completion call; a tool-call-free turn
returns its content (`|| "I couldn\x27t process your request."`); otherwise
the tool calls are executed and the transcript is extended by one assistant
message and one tool message per call, and the loop repeats. -/
def bufStep (cfg : AgentCfg) (reg : Registry) (now : Nat)
    (userIp : Option String) (turn : Except UpErr BufTurn)
    (msgs : List OAIMsg) (ctx : ExecCtx) : BufStepRes :=
  match turn with
  | .error e => .fail e
  | .ok t =>
      if t.tool_calls.isEmpty then
        .done (strOr t.content "I couldn\x27t process your request.")
      else
        let p := executeToolCalls cfg reg now userIp ctx t.tool_calls
        .next
          (msgs ++ [.assistant t.content (some t.tool_calls)] ++
            t.tool_calls.map fun tc =>
              .tool (some (jsonStringify ((jsLookup p.1 tc.id).getD .null)))
                (some tc.id))
          p.1 p.2

/-- The buffered loop, with `fuel = maxIterations - iterations`. -/
def bufLoopAux (cfg : AgentCfg) (reg : Registry) (now : Nat)
    (userIp : Option String) (oracle : BufOracle) :
    Nat → Nat → List OAIMsg → List (String × Json) → ExecCtx → BufLoopOut
  | 0, _iter, msgs, toolResults, ctx =>
      { result := .ok (ceilingContent msgs, toolResults), messages := msgs,
        upstreamCalls := 0, ctx }
  | fuel + 1, iter, msgs, toolResults, ctx =>
      match bufStep cfg reg now userIp (oracle iter) msgs ctx with
      | .done c =>
          { result := .ok (c, toolResults), messages := msgs,
            upstreamCalls := 1, ctx }
      | .fail e =>
          { result := .error e, messages := msgs, upstreamCalls := 1, ctx }
      | .next nextMsgs results ctx2 =>
          let out := bufLoopAux cfg reg now userIp oracle fuel (iter + 1)
            nextMsgs (jsMergeAssoc toolResults results) ctx2
          { out with upstreamCalls := out.upstreamCalls + 1 }

/-- The fixed guidance message returned when no completion-API credential is
configured. -/
def apiKeyGuidance : String :=
  "Configure your API key to enable responses (set OPENAI_API_KEY)."

/-- `processConversationWithTools`: short-circuit without a credential; else
run the bounded loop.  The iteration ceiling here is the hardcoded
`maxIterations = 5` of the source (the `MAX_ITERATIONS` configuration is
read only by the streaming variant). -/
def processConversationWithTools (cfg : AgentCfg) (reg : Registry)
    (now : Nat) (userIp : Option String) (messages : List OAIMsg)
    (oracle : BufOracle) (ctx : ExecCtx) : BufLoopOut :=
  if !cfg.openaiConfigured then
    { result := .ok (apiKeyGuidance, []), messages := messages,
      upstreamCalls := 0, ctx }
  else
    bufLoopAux cfg reg now userIp oracle 5 0 messages [] ctx

/-! ## Buffered entry point (processRequest) -/

/-- A structured memory supplied with a request. -/
structure Memory where
  key : String
  value : String
  category : Option String := none
  timestamp : Option String := none
deriving Repr, DecidableEq

/-- An inbound `AgentRequest`. -/
structure AgentRequest where
  message : String
  conversationHistory : Option (List ConvMsg) := none
  sessionId : Option String := none
  userIp : Option String := none
  memories : Option (List Memory) := none
deriving Repr

/-- An `AgentResponse`. -/
structure AgentResponse where
  message : String
  conversationHistory : List ConvMsg
  sessionId : String
  toolCalls : Option (List ToolCall) := none
  completed : Bool
deriving Repr, DecidableEq

/-- JS `String.prototype.replace` with string pattern: first occurrence
only. -/
def replaceFirst (s pat rep : String) : String :=
  match s.splitOn pat with
  | [] => s
  | [x] => x
  | x :: y :: rest => x ++ rep ++ String.intercalate pat (y :: rest)

/-- `category.charAt(0).toUpperCase() + category.slice(1)`. -/
def capitalize (s : String) : String :=
  match s.data with
  | [] => ""
  | c :: rest => ⟨c.toUpper :: rest⟩

/-- `formatMemoriesSection`: group memories by (`category || 'general'`)
preserving first-encounter category order, then render the markdown
section. -/
def formatMemoriesSection (memories : List Memory) : String :=
  if memories.isEmpty then ""
  else
    let catOf := fun (m : Memory) => strOr m.category "general"
    let categories := (memories.map catOf).dedup
    let body := categories.foldl (fun acc cat =>
      acc ++ "\n### " ++ capitalize cat ++ ":\n" ++
        ((memories.filter fun m => catOf m == cat).foldl (fun acc2 m =>
          acc2 ++ "- **" ++ m.key ++ "**: " ++ m.value ++ "\n") "")) ""
    "\n## User Memories:\n" ++
      "Use this information to provide personalized recommendations and maintain context:\n" ++
      body

/-- `replacePlaceholders`: substitute the current-timestamp token and the
memories section (or remove its placeholder when no memories were
supplied). -/
def replacePlaceholders (prompt : String) (currentDateTime : String)
    (memories : Option (List Memory)) : String :=
  let p := replaceFirst prompt "\x7b\x7bCURRENT_DATE_TIME\x7d\x7d" currentDateTime
  match memories with
  | some ms =>
      if ms.length > 0 then
        replaceFirst p "\x7b\x7bMEMORIES_SECTION\x7d\x7d" (formatMemoriesSection ms)
      else replaceFirst p "\x7b\x7bMEMORIES_SECTION\x7d\x7d" ""
  | none => replaceFirst p "\x7b\x7bMEMORIES_SECTION\x7d\x7d" ""

/-- JSON form of a conversation message (field order of the object
literals built in `agent.service.ts`; absent optional fields are omitted,
as `JSON.stringify` omits `undefined` properties). -/
def convMsgToJson (m : ConvMsg) : Json :=
  .obj (
    [("role", .str (match m.role with
      | .user => "user" | .assistant => "assistant" | .system => "system"
      | .tool => "tool" | .data => "data"))] ++
    (match m.content with
     | some c => [("content", Json.str c)]
     | none => []) ++
    (match m.tool_calls with
     | some l => [("tool_calls", Json.arr (l.map fun tc =>
         .obj [("id", .str tc.id), ("type", .str "function"),
               ("function", .obj [("name", .str tc.name),
                                  ("arguments", .str tc.arguments)])]))]
     | none => []) ++
    (match m.tool_call_id with
     | some i => [("tool_call_id", Json.str i)]
     | none => []) ++
    (match m.timestamp with
     | some t => [("timestamp", Json.str t)]
     | none => []))

/-- `generateCacheKey`: `agent_response:<hash message>:<hash history>` with
`'0'` standing in for an absent history. -/
def generateCacheKey (message : String) (history : Option (List ConvMsg)) :
    String :=
  "agent_response:" ++ simpleHash message ++ ":" ++
    (match history with
     | some l => simpleHash (jsonStringify (.arr (l.map convMsgToJson)))
     | none => "0")

/-- JSON form of an `AgentResponse` for the full-response cache. -/
def responseToJson (r : AgentResponse) : Json :=
  .obj (
    [("message", .str r.message),
     ("conversationHistory", .arr (r.conversationHistory.map convMsgToJson)),
     ("sessionId", .str r.sessionId)] ++
    (match r.toolCalls with
     | some l => [("toolCalls", Json.arr (l.map fun tc =>
         .obj [("id", .str tc.id), ("type", .str "function"),
               ("function", .obj [("name", .str tc.name),
                                  ("arguments", .str tc.arguments)])]))]
     | none => []) ++
    [("completed", .bool r.completed)])

/-- `classify an APIError` as the entry-point catch blocks do. -/
def classifyError : UpErr → String
  | .overloaded =>
      "The service is currently overloaded. Please try again in a few moments."
  | .badRequest =>
      "I\x27m sorry, I couldn\x27t process that. There seems to be an issue with the information provided."
  | .generic =>
      "I apologize, but I encountered an error processing your request. Please try again."

/-- The buffered entry point's result: either a typed fresh response or the
spread of a cached JSON response with the session id substituted. -/
inductive BufResponse where
  | typed (r : AgentResponse)
  | fromCache (cached : Json) (sessionId : String)
deriving Repr

/-- Observable outcome of `processRequest`. -/
structure ProcessOut where
  response : BufResponse
  upstreamCalls : Nat
  backend : Backend
  trace : List (String × Json)

/-- `processRequest`: missing credential → fixed guidance with
`completed = true` and no upstream call; else optional full-response cache
check, then the bounded tool loop, then history/response assembly and an
optional cache write.  A loop `APIError` is caught and classified with
`completed = false`.  (`nowIso` models the wall-clock timestamp string,
`genSid` the generated session id.) -/
def processRequest (cfg : AgentCfg) (reg : Registry) (b : Backend)
    (now : Nat) (nowIso : String) (genSid : String) (request : AgentRequest)
    (oracle : BufOracle) : ProcessOut :=
  if !cfg.openaiConfigured then
    { response := .typed
        { message := apiKeyGuidance,
          conversationHistory := request.conversationHistory.getD [],
          sessionId := strOr request.sessionId genSid,
          toolCalls := none, completed := true },
      upstreamCalls := 0, backend := b, trace := [] }
  else
    let sessionId := strOr request.sessionId genSid
    let cacheKey := generateCacheKey request.message request.conversationHistory
    let cacheLookup :=
      if cfg.cacheEnabled then getCachedResponse b now cacheKey
      else (none, b)
    match cacheLookup.1 with
    | some cached =>
        { response := .fromCache cached sessionId, upstreamCalls := 0,
          backend := cacheLookup.2, trace := [] }
    | none =>
        let b := cacheLookup.2
        let userMsg : ConvMsg :=
          { role := .user, content := some request.message,
            timestamp := some nowIso }
        let history := request.conversationHistory.getD [] ++ [userMsg]
        let systemPromptWithContext :=
          replacePlaceholders cfg.systemPrompt nowIso request.memories
        let messages : List OAIMsg :=
          .system (some systemPromptWithContext) ::
            convertConversationToOpenAI history
        let out := processConversationWithTools cfg reg now request.userIp
          messages oracle { backend := b }
        match out.result with
        | .error e =>
            { response := .typed
                { message := classifyError e,
                  conversationHistory :=
                    (match request.conversationHistory with
                     | some l => l ++ [userMsg]
                     | none => []),
                  sessionId := strOr request.sessionId genSid,
                  toolCalls := none, completed := false },
              upstreamCalls := out.upstreamCalls,
              backend := out.ctx.backend, trace := out.ctx.trace }
        | .ok (content, toolResults) =>
            let assistantMsg : ConvMsg :=
              { role := .assistant, content := some content,
                tool_calls := none, timestamp := some nowIso }
            let toolMsgs := toolResults.map fun kv =>
              ({ role := .tool, content := some (jsonStringify kv.2),
                 tool_call_id := some kv.1, timestamp := some nowIso } : ConvMsg)
            let finalHistory := history ++ [assistantMsg] ++ toolMsgs
            let response : AgentResponse :=
              { message := if content != "" then content
                  else "I apologize, but I couldn\x27t process your request.",
                conversationHistory := finalHistory,
                sessionId, toolCalls := none, completed := true }
            let writeKey := generateCacheKey request.message
              (match request.conversationHistory with
               | some _ => some finalHistory
               | none => none)
            let b' :=
              if cfg.cacheEnabled then
                setCachedResponse out.ctx.backend now writeKey
                  (responseToJson response) cfg.cacheTtlSeconds
              else out.ctx.backend
            { response := .typed response, upstreamCalls := out.upstreamCalls,
              backend := b', trace := out.ctx.trace }

/-! ## Streaming orchestrator (processConversationWithToolsStream) -/

/-- A `StreamingUpdate` event (the payload parts the claims observe). -/
inductive Event where
  | content (s : String)
  | content_stream (s : String)
  | tool_start (toolName : String) (toolDescription : Option String)
  | tool_complete (toolName : String) (content : String)
  | reasoning_start
  | reasoning_progress (tokens : Nat)
  | reasoning_complete
  | complete (content : String) (isError : Bool)
deriving Repr, DecidableEq

/-- One tool-call delta of a streamed chunk (index-addressed fragment). -/
structure ToolCallDelta where
  index : Nat
  id : Option String := none
  name : Option String := none
  args : Option String := none
deriving Repr

/-- One streamed chunk: optional content delta, tool-call deltas, and the
usage snapshot's reasoning-token count. -/
structure Chunk where
  content : Option String := none
  tool_calls : List ToolCallDelta := []
  reasoningTokens : Option Nat := none
deriving Repr

/-- One streamed completion turn; `err` models the upstream call or chunk
iteration throwing after the given chunks were received. -/
structure StreamTurn where
  chunks : List Chunk := []
  err : Option UpErr := none
deriving Repr

/-- The upstream streaming completion API, one turn per loop iteration. -/
abbrev StreamOracle := Nat → StreamTurn

/-- `s || dflt` on strings. -/
def strOrS (s dflt : String) : String := if s != "" then s else dflt

/-- Accumulator for one turn's chunk loop. -/
structure TurnAcc where
  content : String := ""
  tool_calls : List (Option ToolCall) := []
  reasoningTokens : Nat := 0
  reasoningComplete : Bool := false
deriving Repr

/-- JS sparse-array assignment `a[i] = v` (holes are `none`). -/
def setSparse (l : List (Option ToolCall)) (i : Nat) (v : Option ToolCall) :
    List (Option ToolCall) :=
  (l ++ List.replicate (i + 1 - l.length) none).set i v

/-- Apply one tool-call delta: a fresh index creates the call from the
delta's fragments; an existing index only appends argument fragments. -/
def applyDelta (tcs : List (Option ToolCall)) (d : ToolCallDelta) :
    List (Option ToolCall) :=
  match tcs.getD d.index none with
  | none =>
      setSparse tcs d.index (some
        { id := d.id.getD "", name := d.name.getD "",
          arguments := d.args.getD "" })
  | some tc =>
      match d.args with
      | some a =>
          setSparse tcs d.index (some { tc with arguments := tc.arguments ++ a })
      | none => tcs

/-- Process one streamed chunk: reasoning progress/completion events,
content accumulation with `content_stream` events, tool-call delta
accumulation. -/
def processChunk (isReasoning : Bool) (acc : TurnAcc) (ch : Chunk) :
    TurnAcc × List Event :=
  let contentTruthy := strTruthy ch.content
  let p1 :=
    match ch.reasoningTokens with
    | some rt =>
        if isReasoning && rt != 0 && rt > acc.reasoningTokens then
          ({ acc with reasoningTokens := rt }, [Event.reasoning_progress rt])
        else (acc, [])
    | none => (acc, [])
  let acc := p1.1
  let p2 :=
    if isReasoning && contentTruthy && !acc.reasoningComplete then
      ({ acc with reasoningComplete := true }, [Event.reasoning_complete])
    else (acc, [])
  let acc := p2.1
  let p3 :=
    if contentTruthy then
      ({ acc with content := acc.content ++ ch.content.getD "" },
       [Event.content_stream (ch.content.getD "")])
    else (acc, [])
  let acc := p3.1
  let acc := { acc with tool_calls := ch.tool_calls.foldl applyDelta acc.tool_calls }
  (acc, p1.2 ++ p2.2 ++ p3.2)

/-- Fold a turn's chunks. -/
def processChunks (isReasoning : Bool) (chunks : List Chunk) :
    TurnAcc × List Event :=
  chunks.foldl
    (fun p ch =>
      let q := processChunk isReasoning p.1 ch
      (q.1, p.2 ++ q.2))
    ({}, [])

/-- One streamed tool call (lines 399–493 of `agent.service.ts`): emits
`tool_start`, then the unknown-tool error / cache-checked execution /
captured failure, each with its `tool_complete` event. -/
def execOneStream (cfg : AgentCfg) (reg : Registry) (now : Nat)
    (userIp : Option String) (ctx : ExecCtx) (tc : ToolCall) :
    Json × ExecCtx × List Event :=
  let tool? := getTool reg tc.name
  let startEv := Event.tool_start tc.name (tool?.map Tool.description)
  match tool? with
  | none =>
      (unknownToolResult tc.name, ctx,
       [startEv, .tool_complete tc.name ("Error: Unknown tool " ++ tc.name)])
  | some tool =>
      match jsonParse tc.arguments with
      | none =>
          (execErrorResult tc.name jsonParseFailureMessage tc.id, ctx,
           [startEv, .tool_complete tc.name
              ("Error executing " ++ tc.name ++ ": " ++ jsonParseFailureMessage)])
      | some toolArgs =>
          let argsHash := generateToolCacheKey tc.name toolArgs
          let cachedLookup :=
            if cfg.toolCacheEnabled then
              getCachedToolResult ctx.backend now tc.name argsHash
            else (none, ctx.backend)
          let b := cachedLookup.2
          let hit :=
            match cachedLookup.1 with
            | some r => if r.truthy then some r else none
            | none => none
          match hit with
          | some r =>
              (r, { ctx with backend := b },
               [startEv, .tool_complete tc.name "Processing completed successfully."])
          | none =>
              let callArgs := spreadUserIp toolArgs userIp
              match tool.execute callArgs with
              | .error msg =>
                  (execErrorResult tc.name msg tc.id,
                   { backend := b, trace := ctx.trace ++ [(tc.name, callArgs)] },
                   [startEv, .tool_complete tc.name
                      ("Error executing " ++ tc.name ++ ": " ++ msg)])
              | .ok r =>
                  let b' :=
                    if cfg.toolCacheEnabled && cacheableResult r then
                      setCachedToolResult b now tc.name argsHash r
                        cfg.toolCacheTtlSeconds
                    else b
                  (r, { backend := b', trace := ctx.trace ++ [(tc.name, callArgs)] },
                   [startEv, .tool_complete tc.name "Processing completed successfully."])

/-- Sequentially execute a streamed turn's tool calls. -/
def execStreamCalls (cfg : AgentCfg) (reg : Registry) (now : Nat)
    (userIp : Option String) (ctx : ExecCtx) (calls : List ToolCall) :
    List (String × Json) × ExecCtx × List Event :=
  match calls with
  | [] => ([], ctx, [])
  | tc :: rest =>
      let p := execOneStream cfg reg now userIp ctx tc
      let q := execStreamCalls cfg reg now userIp p.2.1 rest
      ((tc.id, p.1) :: q.1, q.2.1, p.2.2 ++ q.2.2)

/-- Result of the streaming loop. -/
structure StreamOut where
  events : List Event
  err : Option UpErr
  upstreamCalls : Nat
  ctx : ExecCtx

/-- Result of one streaming loop iteration. -/
inductive StreamStepRes where
  | done (events : List Event) (ctx : ExecCtx)
  | fail (events : List Event) (e : UpErr) (ctx : ExecCtx)
  | next (events : List Event) (msgs : List OAIMsg) (ctx : ExecCtx)

/-- One iteration of the `while (iterations < maxIterations)` body of
`processConversationWithToolsStream`: one streamed completion (preceded by
`reasoning_start` for reasoning models), chunk accumulation, then either
the final `content` event (tool-call-free turn), an upstream failure, or
sequential tool execution and another iteration.  A sparse accumulated
tool-call array (a hole hit by the `for..of`) raises a `TypeError` after
the dense prefix was executed, which the entry point catch classifies as a
generic error. -/
def streamStep (cfg : AgentCfg) (reg : Registry) (now : Nat)
    (userIp : Option String) (turn : StreamTurn) (msgs : List OAIMsg)
    (ctx : ExecCtx) : StreamStepRes :=
  let preEvents : List Event :=
    if cfg.isReasoningModel then [.reasoning_start] else []
  let pc := processChunks cfg.isReasoningModel turn.chunks
  let acc := pc.1
  let chunkEvents := pc.2
  match turn.err with
  | some e => .fail (preEvents ++ chunkEvents) e ctx
  | none =>
      if acc.tool_calls.isEmpty then
        .done (preEvents ++ chunkEvents ++
          [.content (strOrS acc.content "I couldn\x27t process your request.")])
          ctx
      else
        let denseCalls := (acc.tool_calls.takeWhile Option.isSome).filterMap id
        if denseCalls.length < acc.tool_calls.length then
          let p := execStreamCalls cfg reg now userIp ctx denseCalls
          .fail (preEvents ++ chunkEvents ++ p.2.2) .generic p.2.1
        else
          let q := execStreamCalls cfg reg now userIp ctx denseCalls
          .next (preEvents ++ chunkEvents ++ q.2.2)
            (msgs ++
              [.assistant (if acc.content != "" then some acc.content else none)
                (some denseCalls)] ++
              denseCalls.map fun tc =>
                .tool (some (jsonStringify ((jsLookup q.1 tc.id).getD .null)))
                  (some tc.id))
            q.2.1

/-- The streaming loop, with `fuel = maxIterations - iterations`; exhausted
fuel emits the fixed ceiling `content` event. -/
def streamLoopAux (cfg : AgentCfg) (reg : Registry) (now : Nat)
    (userIp : Option String) (oracle : StreamOracle) :
    Nat → Nat → List OAIMsg → ExecCtx → StreamOut
  | 0, _iter, _msgs, ctx =>
      { events := [.content maxToolCallsMessage], err := none,
        upstreamCalls := 0, ctx }
  | fuel + 1, iter, msgs, ctx =>
      match streamStep cfg reg now userIp (oracle iter) msgs ctx with
      | .done evs ctx2 =>
          { events := evs, err := none, upstreamCalls := 1, ctx := ctx2 }
      | .fail evs e ctx2 =>
          { events := evs, err := some e, upstreamCalls := 1, ctx := ctx2 }
      | .next evs nextMsgs ctx2 =>
          let out := streamLoopAux cfg reg now userIp oracle fuel (iter + 1)
            nextMsgs ctx2
          { events := evs ++ out.events, err := out.err,
            upstreamCalls := out.upstreamCalls + 1, ctx := out.ctx }

/-! ## Streaming entry point (processRequestStream) and mock path -/

/-- `processMockResponse`'s source messages: the mock file's assistant
contents (non-`user` role, truthy content), reversed; fallback when none. -/
def mockFallback : String :=
  "I\x27m a mock response! The system is currently in mock mode for testing. This would normally be a real AI response."

/-- Extract the messages the mock path streams. -/
def mockMessages (mockData : Option Json) : List String :=
  let data := mockData.getD (.obj [("message", .str mockFallback)])
  let msgs :=
    match data.getField "conversationHistory" with
    | some (.arr entries) =>
        entries.filterMap fun (e : Json) =>
          let roleNotUser :=
            match e.getField "role" with
            | some (.str r) => r != "user"
            | _ => true
          let contentTruthy :=
            match e.getField "content" with
            | some c => c.truthy
            | none => false
          if roleNotUser && contentTruthy then
            some (match e.getField "content" with
              | some (.str s) => s
              | _ => "")
          else none
    | _ => []
  let msgs := msgs.reverse
  if msgs.isEmpty then [mockFallback] else msgs

/-- The mock path's event stream: messages streamed character by character,
separated by a divider, terminated by a single `complete`. -/
def mockEvents (mockData : Option Json) : List Event :=
  ((mockMessages mockData).enum.flatMap fun p =>
    (if p.1 > 0 then [Event.content_stream "\n\n---\n\n"] else []) ++
      p.2.data.map fun c => Event.content_stream ⟨[c]⟩) ++
  [.complete "Mock conversation completed successfully" false]

/-- `processRequestStream`: missing credential → guidance `content` then
`complete`; mock mode → mock events; else run the streaming loop (ceiling
`cfg.maxIterations`, the configurable `MAX_ITERATIONS`) and terminate with
one `complete` — success content on the normal path, the classified error
message on the error path. -/
def processRequestStream (cfg : AgentCfg) (reg : Registry) (b : Backend)
    (now : Nat) (nowIso : String) (_genSid : String) (request : AgentRequest)
    (oracle : StreamOracle) : List Event × Backend × List (String × Json) × Nat :=
  if !cfg.openaiConfigured then
    ([.content apiKeyGuidance, .complete apiKeyGuidance false], b, [], 0)
  else if cfg.mockEnabled then
    (mockEvents cfg.mockData, b, [], 0)
  else
    let userMsg : ConvMsg :=
      { role := .user, content := some request.message,
        timestamp := some nowIso }
    let history := request.conversationHistory.getD [] ++ [userMsg]
    let systemPromptWithContext :=
      replacePlaceholders cfg.systemPrompt nowIso request.memories
    let messages : List OAIMsg :=
      .system (some systemPromptWithContext) ::
        convertConversationToOpenAI history
    let out := streamLoopAux cfg reg now request.userIp oracle
      cfg.maxIterations 0 messages { backend := b }
    match out.err with
    | none =>
        (out.events ++ [.complete "Conversation completed successfully" false],
         out.ctx.backend, out.ctx.trace, out.upstreamCalls)
    | some e =>
        (out.events ++ [.complete (classifyError e) true],
         out.ctx.backend, out.ctx.trace, out.upstreamCalls)

/-! # Shared lemmas -/

/-- The buffered loop performs at most `fuel` upstream completion calls. -/
theorem bufLoopAux_upstream_le (cfg : AgentCfg) (reg : Registry) (now : Nat)
    (userIp : Option String) (oracle : BufOracle) :
    ∀ (fuel iter : Nat) (msgs : List OAIMsg)
      (toolResults : List (String × Json)) (ctx : ExecCtx),
      (bufLoopAux cfg reg now userIp oracle fuel iter msgs toolResults
        ctx).upstreamCalls ≤ fuel := by
  intro fuel
  induction fuel with
  | zero => intro iter msgs toolResults ctx; simp [bufLoopAux]
  | succ n ih =>
      intro iter msgs toolResults ctx
      rw [bufLoopAux]
      cases bufStep cfg reg now userIp (oracle iter) msgs ctx with
      | done c => simp
      | fail e => simp
      | next nextMsgs results ctx2 => exact Nat.succ_le_succ (ih _ _ _ _)

/-- The buffered loop with positive fuel performs at least one upstream
call. -/
theorem bufLoopAux_upstream_pos (cfg : AgentCfg) (reg : Registry) (now : Nat)
    (userIp : Option String) (oracle : BufOracle) (fuel iter : Nat)
    (msgs : List OAIMsg) (toolResults : List (String × Json)) (ctx : ExecCtx) :
    1 ≤ (bufLoopAux cfg reg now userIp oracle (fuel + 1) iter msgs toolResults
      ctx).upstreamCalls := by
  rw [bufLoopAux]
  cases bufStep cfg reg now userIp (oracle iter) msgs ctx with
  | done c => simp
  | fail e => simp
  | next nextMsgs results ctx2 => simp

/-- The streaming loop performs at most `fuel` upstream completion calls. -/
theorem streamLoopAux_upstream_le (cfg : AgentCfg) (reg : Registry)
    (now : Nat) (userIp : Option String) (oracle : StreamOracle) :
    ∀ (fuel iter : Nat) (msgs : List OAIMsg) (ctx : ExecCtx),
      (streamLoopAux cfg reg now userIp oracle fuel iter msgs
        ctx).upstreamCalls ≤ fuel := by
  intro fuel
  induction fuel with
  | zero => intro iter msgs ctx; simp [streamLoopAux]
  | succ n ih =>
      intro iter msgs ctx
      rw [streamLoopAux]
      cases streamStep cfg reg now userIp (oracle iter) msgs ctx with
      | done evs ctx2 => simp
      | fail evs e ctx2 => simp
      | next evs nextMsgs ctx2 => exact Nat.succ_le_succ (ih _ _ _)

/-! # Claims -/

/-- **C7**: `convertConversationToOpenAI` acts per message (homomorphic over
append); a `data`-role message is first relabeled `assistant`; `user` and
`tool` messages with empty (falsy) content are dropped; an `assistant`
message is dropped iff it has neither truthy content nor a non-empty
tool-call list; `system` messages always pass through with their content
unchanged. -/
theorem c7_history_conversion :
    (∀ xs ys : List ConvMsg, convertConversationToOpenAI (xs ++ ys) =
        convertConversationToOpenAI xs ++ convertConversationToOpenAI ys) ∧
    (∀ m : ConvMsg, m.role = .data →
        convertConversationToOpenAI [m] =
          convertConversationToOpenAI [{ m with role := Role.assistant }]) ∧
    (∀ m : ConvMsg, (m.role = .user ∨ m.role = .tool) →
        strTruthy m.content = false →
        convertConversationToOpenAI [m] = []) ∧
    (∀ m : ConvMsg, m.role = .assistant →
        (convertConversationToOpenAI [m] = [] ↔
          strTruthy m.content = false ∧
            (match m.tool_calls with
             | some l => l.length = 0
             | none => True))) ∧
    (∀ m : ConvMsg, m.role = .system →
        convertConversationToOpenAI [m] = [.system m.content]) := by
  refine ⟨?_, ?_, ?_, ?_, ?_⟩
  · intro xs ys
    simp [convertConversationToOpenAI]
  · intro m h
    simp [convertConversationToOpenAI, preprocessMsg, h]
  · intro m h hc
    rcases h with h | h <;>
      simp [convertConversationToOpenAI, preprocessMsg, keepMsg, h, hc]
  · intro m h
    simp only [convertConversationToOpenAI, preprocessMsg, h, List.map_cons,
      List.map_nil]
    by_cases hc : strTruthy m.content
    · simp [keepMsg, h, hc]
    · cases htc : m.tool_calls with
      | none => simp [keepMsg, h, hc, htc]
      | some l =>
          by_cases hl : l.length = 0 <;>
            simp [keepMsg, h, hc, htc, hl, List.filter, Nat.pos_iff_ne_zero]
  · intro m h
    simp [convertConversationToOpenAI, preprocessMsg, keepMsg, toOpenAI, h]

/-- **C7 witness**: a `user` message with empty content is dropped; a
`data`-role message converts like its `assistant` relabeling. -/
theorem c7_history_conversion_witness :
    convertConversationToOpenAI [⟨.user, some "", none, none, none⟩] = [] ∧
    convertConversationToOpenAI [⟨.data, some "hi", none, none, none⟩] =
      convertConversationToOpenAI [⟨.assistant, some "hi", none, none, none⟩] :=
  ⟨c7_history_conversion.2.2.1 _ (Or.inl rfl) rfl,
   c7_history_conversion.2.1 ⟨.data, some "hi", none, none, none⟩ rfl⟩

/-- **C4**: with no completion-API credential configured, the buffered entry
point returns the fixed guidance message with `completed = true`, the
streaming entry point emits that guidance followed by a single `complete`
event, and neither attempts an upstream completion call. -/
theorem c4_no_credential_short_circuit :
    ∀ (cfg : AgentCfg) (reg : Registry) (b : Backend) (now : Nat)
      (nowIso genSid : String) (request : AgentRequest) (oracleB : BufOracle)
      (oracleS : StreamOracle),
      cfg.openaiConfigured = false →
      processRequest cfg reg b now nowIso genSid request oracleB =
        { response := .typed
            { message := apiKeyGuidance,
              conversationHistory := request.conversationHistory.getD [],
              sessionId := strOr request.sessionId genSid,
              toolCalls := none, completed := true },
          upstreamCalls := 0, backend := b, trace := [] } ∧
      processRequestStream cfg reg b now nowIso genSid request oracleS =
        ([.content apiKeyGuidance, .complete apiKeyGuidance false], b, [], 0) := by
  intro cfg reg b now nowIso genSid request oB oS h
  constructor
  · simp [processRequest, h]
  · simp [processRequestStream, h]

/-- **C4 witness**. -/
theorem c4_no_credential_short_circuit_witness :
    processRequest { openaiConfigured := false } [] .disabled 0 "t0" "sid"
        { message := "hello" } (fun _ => .error .generic) =
      { response := .typed
          { message := apiKeyGuidance, conversationHistory := [],
            sessionId := "sid", toolCalls := none, completed := true },
        upstreamCalls := 0, backend := .disabled, trace := [] } ∧
    processRequestStream { openaiConfigured := false } [] .disabled 0 "t0"
        "sid" { message := "hello" } (fun _ => {}) =
      ([.content apiKeyGuidance, .complete apiKeyGuidance false],
        .disabled, [], 0) :=
  c4_no_credential_short_circuit { openaiConfigured := false } [] .disabled 0
    "t0" "sid" { message := "hello" } (fun _ => .error .generic)
    (fun _ => {}) rfl

/-- **C5**: a requested tool call whose name is absent from the registry is
recorded as exactly `{error: "Unknown tool: <name>"}` (with the matching
streamed events), the remaining tool calls of the turn are still processed,
no tool is executed for it and the cache is untouched, and the orchestrator
loop proceeds to another completion call rather than aborting. -/
theorem c5_unknown_tool :
    ∀ (cfg : AgentCfg) (reg : Registry) (now : Nat) (userIp : Option String)
      (ctx : ExecCtx) (id name args : String) (rest : List ToolCall),
      getTool reg name = none →
      (executeToolCalls cfg reg now userIp ctx
          ({ id, name, arguments := args } :: rest) =
        ((id, unknownToolResult name) ::
            (executeToolCalls cfg reg now userIp ctx rest).1,
          (executeToolCalls cfg reg now userIp ctx rest).2)) ∧
      (execOneStream cfg reg now userIp ctx { id, name, arguments := args } =
        (unknownToolResult name, ctx,
         [.tool_start name none,
          .tool_complete name ("Error: Unknown tool " ++ name)])) ∧
      (∀ (oracle : BufOracle) (iter fuel : Nat) (msgs : List OAIMsg)
          (toolResults : List (String × Json)) (turn : BufTurn),
        oracle iter = .ok turn → turn.tool_calls ≠ [] →
        2 ≤ (bufLoopAux cfg reg now userIp oracle (fuel + 2) iter msgs
          toolResults ctx).upstreamCalls) := by
  intro cfg reg now userIp ctx id name args rest h
  refine ⟨?_, ?_, ?_⟩
  · simp [executeToolCalls, execOneCall, h]
  · simp [execOneStream, h]
  · intro oracle iter fuel msgs toolResults turn hturn hne
    have hstep : bufStep cfg reg now userIp (oracle iter) msgs ctx =
        .next
          (msgs ++ [.assistant turn.content (some turn.tool_calls)] ++
            turn.tool_calls.map fun tc =>
              .tool (some (jsonStringify
                ((jsLookup (executeToolCalls cfg reg now userIp ctx
                  turn.tool_calls).1 tc.id).getD .null))) (some tc.id))
          (executeToolCalls cfg reg now userIp ctx turn.tool_calls).1
          (executeToolCalls cfg reg now userIp ctx turn.tool_calls).2 := by
      have : turn.tool_calls.isEmpty = false := by
        simpa [List.isEmpty_iff] using hne
      simp [bufStep, hturn, this]
    rw [show fuel + 2 = (fuel + 1) + 1 by omega, bufLoopAux, hstep]
    have h1 := bufLoopAux_upstream_pos cfg reg now userIp oracle fuel (iter + 1)
      (msgs ++ [.assistant turn.content (some turn.tool_calls)] ++
        turn.tool_calls.map fun tc =>
          .tool (some (jsonStringify
            ((jsLookup (executeToolCalls cfg reg now userIp ctx
              turn.tool_calls).1 tc.id).getD .null))) (some tc.id))
      (jsMergeAssoc toolResults
        (executeToolCalls cfg reg now userIp ctx turn.tool_calls).1)
      (executeToolCalls cfg reg now userIp ctx turn.tool_calls).2
    simpa using Nat.succ_le_succ h1

/-- **C5 witness**: with an empty registry, an unknown call records the
error result and a following turn is still issued. -/
theorem c5_unknown_tool_witness :
    executeToolCalls {} [] 0 none { backend := .disabled }
        [{ id := "c1", name := "nope", arguments := "\x7b\x7d" }] =
      ([("c1", unknownToolResult "nope")], { backend := .disabled }) ∧
    2 ≤ (bufLoopAux {} [] 0 none
        (fun _ => Except.ok { content := none, tool_calls := [{ id := "c1", name := "nope", arguments := "\x7b\x7d" }] })
        2 0 [] [] { backend := .disabled }).upstreamCalls := by
  have h := c5_unknown_tool {} [] 0 none { backend := .disabled } "c1" "nope"
    "\x7b\x7d" [] rfl
  exact ⟨by simpa [executeToolCalls] using h.1,
    h.2.2 (fun _ => Except.ok { content := none, tool_calls := [{ id := "c1", name := "nope", arguments := "\x7b\x7d" }] })
      0 0 [] [] _ rfl (by simp)⟩

/-- **C8**: when the underlying store raises, the admission guard fails
open (admits, leaving the store untouched); when the store is unconfigured
(`disabled`), every store operation degrades to its default (`get` → null,
`incr` → 0, `exists` → false, cache reads → miss, cache writes → no-op)
and an enabled guard still admits, reporting the full quota — so only
caching and rate limiting are disabled. -/
theorem c8_fail_open :
    (∀ (cfg : RateCfg) (now : Nat) (id : String),
        canActivate cfg .down now id = (.admitted none, .down)) ∧
    (∀ (now : Nat) (key : String) (data : Json) (ttl : Nat),
        rsGet .disabled now key = .ok none ∧
        rsIncr .disabled now key = .ok (0, .disabled) ∧
        rsExists .disabled now key = .ok false ∧
        getCachedResponse .disabled now key = (none, .disabled) ∧
        getCachedToolResult .disabled now key key = (none, .disabled) ∧
        setCachedResponse .disabled now key data ttl = .disabled ∧
        setCachedToolResult .disabled now key key data ttl = .disabled) ∧
    (∀ (cfg : RateCfg) (now : Nat) (id : String), cfg.enabled = true →
        canActivate cfg .disabled now id =
          (.admitted (some ((cfg.maxRequests : Int),
            (now : Int) * 1000 + (cfg.windowSeconds : Int) * 1000)),
           .disabled)) := by
  refine ⟨?_, ?_, ?_⟩
  · intro cfg now id
    by_cases h : cfg.enabled <;>
      simp [canActivate, checkRateLimit, getBlockInfo, incrementRateLimit, h,
        Bind.bind, Except.bind, pure, Except.pure]
  · intro now key data ttl
    refine ⟨rfl, rfl, rfl, rfl, rfl, rfl, rfl⟩
  · intro cfg now id h
    have hmax : (0 : Int) ⊔ ((cfg.maxRequests : Int) - 0) = (cfg.maxRequests : Int) := by
      simp [max_eq_right]
    simp [canActivate, checkRateLimit, getBlockInfo, incrementRateLimit,
      getRateLimitInfo, h, Bind.bind, Except.bind, pure, Except.pure, hmax]

/-- Deleting a key really removes it. -/
theorem lookup_storeDel_self (st : Store) (key : String) :
    (storeDel st key).lookup key = none := by
  induction st with
  | nil => rfl
  | cons kv tl ih =>
      rcases kv with ⟨k, e⟩
      simp only [storeDel, List.filter_cons] at ih ⊢
      by_cases h : k = key
      · simp only [h, bne_self_eq_false, Bool.false_eq_true, if_false]
        exact ih
      · have hb : (k != key) = true := bne_iff_ne.mpr h
        simp only [hb, if_true]
        have hk : (key == k) = false := beq_eq_false_iff_ne.mpr (Ne.symm h)
        simpa only [List.lookup, hk] using ih

/-- After a purge the key no longer exists. -/
theorem storeExists_storeDel_self (st : Store) (now : Nat) (key : String) :
    storeExists (storeDel st key) now key = false := by
  simp [storeExists, storeGet, lookup_storeDel_self]

/-- **C6 counterexample**: a stored *empty string* is falsy in JS, so the
read path returns a miss *without* deleting the key, although the empty
string is unparseable JSON — contradicting the claim that every stored
unparseable string is purged on read. -/
theorem c6_counterexample :
    jsonParse "" = none ∧
    getCachedResponse (.up [("k", ⟨.rstr "", none⟩)]) 0 "k" =
      (none, .up [("k", ⟨.rstr "", none⟩)]) ∧
    storeExists [("k", ⟨.rstr "", none⟩)] 0 "k" = true :=
  ⟨rfl, rfl, rfl⟩

/-- **C6 (amended)**: both cache read paths (`getCachedToolResult` is the
same read path at key `tool_result:<name>:<hash>`): a missing key is a
miss; a *falsy* stored value (empty string, zero) is a miss without purge;
a truthy non-string value, a corrupt-serialization sentinel (equal to
`"[object Object]"` or starting with `"[object "`), or an unparseable
string is purged and yields a miss; otherwise the parsed JSON value is
returned with the store untouched. -/
theorem c6_cache_read_path :
    (∀ (b : Backend) (now : Nat) (toolName argsHash : String),
        getCachedToolResult b now toolName argsHash =
          getCachedResponse b now (toolResultKey toolName argsHash)) ∧
    (∀ (st : Store) (now : Nat) (key : String),
      (storeGet st now key = none →
        getCachedResponse (.up st) now key = (none, .up st)) ∧
      (∀ v, storeGet st now key = some v → v.truthy = false →
        getCachedResponse (.up st) now key = (none, .up st)) ∧
      (∀ n : Int, storeGet st now key = some (.rint n) → n ≠ 0 →
        getCachedResponse (.up st) now key = (none, .up (storeDel st key)) ∧
          storeExists (storeDel st key) now key = false) ∧
      (∀ s, storeGet st now key = some (.rstr s) → s ≠ "" →
        (s = "[object Object]" ∨ jsStartsWith s "[object " = true) →
        getCachedResponse (.up st) now key = (none, .up (storeDel st key)) ∧
          storeExists (storeDel st key) now key = false) ∧
      (∀ s, storeGet st now key = some (.rstr s) → s ≠ "" →
        s ≠ "[object Object]" → jsStartsWith s "[object " = false →
        jsonParse s = none →
        getCachedResponse (.up st) now key = (none, .up (storeDel st key)) ∧
          storeExists (storeDel st key) now key = false) ∧
      (∀ s j, storeGet st now key = some (.rstr s) → s ≠ "" →
        s ≠ "[object Object]" → jsStartsWith s "[object " = false →
        jsonParse s = some j →
        getCachedResponse (.up st) now key = (some j, .up st))) := by
  refine ⟨fun b now tn ah => rfl, fun st now key => ⟨?_, ?_, ?_, ?_, ?_, ?_⟩⟩
  · intro h; simp [getCachedResponse, cacheReadPath, h]
  · intro v h hv; simp [getCachedResponse, cacheReadPath, h, hv]
  · intro n h hn
    refine ⟨?_, storeExists_storeDel_self st now key⟩
    simp [getCachedResponse, cacheReadPath, h, RVal.truthy, hn]
  · intro s h hs hsent
    refine ⟨?_, storeExists_storeDel_self st now key⟩
    rcases hsent with hsent | hsent <;>
      simp [getCachedResponse, cacheReadPath, h, RVal.truthy, hs, hsent]
  · intro s h hs h1 h2 hp
    refine ⟨?_, storeExists_storeDel_self st now key⟩
    simp [getCachedResponse, cacheReadPath, h, RVal.truthy, hs, h1, h2, hp]
  · intro s j h hs h1 h2 hp
    simp [getCachedResponse, cacheReadPath, h, RVal.truthy, hs, h1, h2, hp]

/-- **C6 witness**: a stored truthy non-string is purged; a valid JSON
string parses back. -/
theorem c6_cache_read_path_witness :
    getCachedResponse (.up [("k", ⟨.rint 5, none⟩)]) 0 "k" =
      (none, .up (storeDel [("k", ⟨.rint 5, none⟩)] "k")) ∧
    getCachedResponse (.up [("k", ⟨.rstr "\x7b\"a\":1\x7d", none⟩)]) 0 "k" =
      (some (.obj [("a", .num 1)]), .up [("k", ⟨.rstr "\x7b\"a\":1\x7d", none⟩)]) :=
  ⟨((c6_cache_read_path.2 [("k", ⟨.rint 5, none⟩)] 0 "k").2.2.1 5 rfl
      (by decide)).1,
   (c6_cache_read_path.2 [("k", ⟨.rstr "\x7b\"a\":1\x7d", none⟩)] 0 "k").2.2.2.2.2
      _ _ rfl (by decide) (by decide) (by decide) rfl⟩

/-- Pruning object fields prunes each value and keeps keys and order. -/
theorem pruneFields_lookup (allow : List String)
    (kvs : List (String × Json)) (k : String) :
    (pruneFields allow kvs).lookup k = (kvs.lookup k).map (prune allow) := by
  induction kvs with
  | nil => rfl
  | cons kv tl ih =>
      rcases kv with ⟨k', v⟩
      by_cases h : k = k'
      · simp [pruneFields, List.lookup, beq_iff_eq.mpr h]
      · simp [pruneFields, List.lookup, beq_eq_false_iff_ne.mpr h, ih]

/-- With duplicate-free keys, `lookup` only depends on the binding set. -/
theorem lookup_perm_of_nodup {l1 l2 : List (String × Json)}
    (h : l1.Perm l2) (nd : (l1.map Prod.fst).Nodup) (k : String) :
    l1.lookup k = l2.lookup k := by
  induction h with
  | nil => rfl
  | cons x _ ih =>
      rcases x with ⟨k', v⟩
      by_cases hk : k = k'
      · simp [List.lookup, beq_iff_eq.mpr hk]
      · simp only [List.map_cons, List.nodup_cons] at nd
        simp [List.lookup, beq_eq_false_iff_ne.mpr hk, ih nd.2]
  | swap x y l =>
      rcases x with ⟨kx, vx⟩
      rcases y with ⟨ky, vy⟩
      simp only [List.map_cons, List.nodup_cons, List.mem_cons] at nd
      have hxy : ky ≠ kx := fun hcontra => nd.1 (Or.inl hcontra)
      by_cases hk : k = ky
      · simp [List.lookup, beq_iff_eq.mpr hk,
          beq_eq_false_iff_ne.mpr (hk ▸ hxy)]
      · by_cases hk2 : k = kx
        · simp [List.lookup, beq_iff_eq.mpr hk2, beq_eq_false_iff_ne.mpr hk]
        · simp [List.lookup, beq_eq_false_iff_ne.mpr hk,
            beq_eq_false_iff_ne.mpr hk2]
  | trans h1 h2 ih1 ih2 =>
      refine (ih1 nd).trans (ih2 ?_)
      exact (h1.map Prod.fst).nodup_iff.mp nd

/-- **C10**: `generateToolCacheKey` is a pure function of the argument
object's top-level key set and allow-listed content: (1) two argument
objects that are permutations of each other (same keys, same values,
duplicate-free keys) receive the same cache key, regardless of insertion
order; (2) because `JSON.stringify` is invoked with the sorted top-level
key list as an array replacer, the hash factors through `prune` — two
argument objects with the same sorted top-level keys whose pruned forms
agree (i.e. differing only in nested properties whose names are not among
the top-level keys) receive the same cache key. -/
theorem c10_tool_cache_key :
    (∀ (name : String) (kvs1 kvs2 : List (String × Json)),
        kvs1.Perm kvs2 → (kvs1.map Prod.fst).Nodup →
        generateToolCacheKey name (.obj kvs1) =
          generateToolCacheKey name (.obj kvs2)) ∧
    (∀ (name : String) (kvs1 kvs2 : List (String × Json)),
        (jsObjectKeys (.obj kvs1)).insertionSort jsStrLe =
          (jsObjectKeys (.obj kvs2)).insertionSort jsStrLe →
        prune ((jsObjectKeys (.obj kvs1)).insertionSort jsStrLe) (.obj kvs1) =
          prune ((jsObjectKeys (.obj kvs2)).insertionSort jsStrLe) (.obj kvs2) →
        generateToolCacheKey name (.obj kvs1) =
          generateToolCacheKey name (.obj kvs2)) := by
  constructor
  · intro name kvs1 kvs2 hperm nd
    have hkeys : ((kvs1.map Prod.fst).insertionSort jsStrLe) =
        ((kvs2.map Prod.fst).insertionSort jsStrLe) := by
      exact List.eq_of_perm_of_sorted
        ((List.perm_insertionSort _ _).trans
          ((hperm.map Prod.fst).trans (List.perm_insertionSort _ _).symm))
        (List.sorted_insertionSort _ _) (List.sorted_insertionSort _ _)
    have hlookup : ∀ k, kvs1.lookup k = kvs2.lookup k :=
      lookup_perm_of_nodup hperm nd
    have hreorder : ∀ allow : List String,
        reorderFilter allow (pruneFields allow kvs1) =
          reorderFilter allow (pruneFields allow kvs2) := by
      intro allow
      unfold reorderFilter
      refine List.filterMap_congr fun k _ => ?_
      rw [pruneFields_lookup, pruneFields_lookup, hlookup k]
    simp only [generateToolCacheKey, jsonStringifyWith, jsObjectKeys, prune,
      hkeys, hreorder]
  · intro name kvs1 kvs2 hkeys hprune
    rw [hkeys] at hprune
    simp only [generateToolCacheKey, jsonStringifyWith, hkeys, hprune]

/-- **C10 witness**: key insertion order does not matter, and nested
properties outside the top-level key list are excluded from the hash. -/
theorem c10_tool_cache_key_witness :
    generateToolCacheKey "t" (.obj [("b", .num 2), ("a", .num 1)]) =
      generateToolCacheKey "t" (.obj [("a", .num 1), ("b", .num 2)]) ∧
    generateToolCacheKey "t"
        (.obj [("a", .obj [("x", .num 1)]), ("b", .num 2)]) =
      generateToolCacheKey "t"
        (.obj [("a", .obj [("y", .num 5)]), ("b", .num 2)]) :=
  ⟨c10_tool_cache_key.1 "t" _ _ (List.Perm.swap _ _ _) (by decide),
   c10_tool_cache_key.2 "t" _ _ rfl rfl⟩

/-- Reading a key straight after `SETEX` inside the TTL returns the stored
value; past the TTL it misses. -/
theorem storeGet_setex_self (st : Store) (now : Nat) (key : String)
    (ttl : Nat) (v : RVal) (t2 : Nat) :
    storeGet (storeSetex st now key ttl v) t2 key =
      if t2 < now + ttl then some v else none := by
  by_cases h : t2 < now + ttl <;>
    simp [storeGet, storeSetex, List.lookup, Entry.live, h]

/-- A serialized object starts with an opening brace. -/
theorem stringify_obj_data (kvs : List (String × Json)) :
    (jsonStringify (Json.obj kvs)).data =
      '\x7b' :: (stringifyFields kvs ++ "\x7d").data := by
  show (("\x7b" ++ stringifyFields kvs) ++ "\x7d").data = _
  rw [String.data_append, String.data_append, String.data_append]
  rfl

/-- A serialized object is never the corrupt-serialization sentinel. -/
theorem stringify_obj_ne_sentinel (kvs : List (String × Json)) :
    (jsonStringify (Json.obj kvs) == "[object Object]") = false := by
  rw [beq_eq_false_iff_ne]
  intro h
  have := congrArg String.data h
  rw [stringify_obj_data] at this
  simp at this

/-- A serialized object never starts with `"[object "`. -/
theorem stringify_obj_not_objPrefixed (kvs : List (String × Json)) :
    jsStartsWith (jsonStringify (Json.obj kvs)) "[object " = false := by
  unfold jsStartsWith
  rw [stringify_obj_data]
  simp [List.isPrefixOf]

/-- A serialized object is a truthy (non-empty) string. -/
theorem stringify_obj_ne_empty (kvs : List (String × Json)) :
    (jsonStringify (Json.obj kvs) != "") = true := by
  rw [bne_iff_ne]
  intro h
  have := congrArg String.data h
  rw [stringify_obj_data] at this
  simp at this

/-- A cacheable result is truthy. -/
theorem cacheableResult_truthy {r : Json} (h : cacheableResult r = true) :
    r.truthy = true := by
  simp only [cacheableResult, Bool.and_eq_true] at h
  exact h.1.1

/-- **C2 counterexample**: with tool-result caching enabled and the store
healthy, a tool whose result is an *error object* is not written through,
so a second identical `(toolName, arguments)` call within the TTL executes
the underlying tool again — two executions, refuting "at most once". -/
theorem c2_counterexample :
    (executeToolCalls { toolCacheEnabled := true }
        [⟨"t", "d", fun _ => .ok (.obj [("error", .str "boom")])⟩] 1 none
        (executeToolCalls { toolCacheEnabled := true }
          [⟨"t", "d", fun _ => .ok (.obj [("error", .str "boom")])⟩] 0 none
          { backend := .up [] }
          [{ id := "c1", name := "t", arguments := "\x7b\x7d" }]).2
        [{ id := "c2", name := "t", arguments := "\x7b\x7d" }]).2.trace =
      [("t", .obj [("userIp", .null)]), ("t", .obj [("userIp", .null)])] := by
  rfl

/-- **C2 (amended)**: with tool-result caching enabled and the store
healthy: when a tool call's result is a cacheable (truthy, non-error)
object, its serialization is written through under the
`tool_result:<name>:<argsHash>` key, and a second identical
`(toolName, arguments)` call within the TTL window returns the parse of
exactly that serialized value from the cache without executing the tool
again; when the result is not a cacheable object (e.g. an error), nothing
is written, so an identical call re-executes. -/
theorem c2_tool_cache_idempotence :
    ∀ (cfg : AgentCfg) (reg : Registry) (tool : Tool) (st : Store)
      (now1 now2 : Nat) (userIp : Option String)
      (name argsStr id1 id2 : String) (args : Json)
      (trace0 : List (String × Json)),
      cfg.toolCacheEnabled = true →
      getTool reg name = some tool →
      jsonParse argsStr = some args →
      storeGet st now1
        (toolResultKey name (generateToolCacheKey name args)) = none →
      (∀ (kvs : List (String × Json)),
        tool.execute (spreadUserIp args userIp) = .ok (.obj kvs) →
        cacheableResult (.obj kvs) = true →
        jsonParse (jsonStringify (.obj kvs)) = some (.obj kvs) →
        now2 < now1 + cfg.toolCacheTtlSeconds →
        executeToolCalls cfg reg now1 userIp
            { backend := .up st, trace := trace0 }
            [{ id := id1, name := name, arguments := argsStr }] =
          ([(id1, .obj kvs)],
           { backend := .up (storeSetex st now1
               (toolResultKey name (generateToolCacheKey name args))
               cfg.toolCacheTtlSeconds (.rstr (jsonStringify (.obj kvs)))),
             trace := trace0 ++ [(name, spreadUserIp args userIp)] }) ∧
        executeToolCalls cfg reg now2 userIp
            { backend := .up (storeSetex st now1
                (toolResultKey name (generateToolCacheKey name args))
                cfg.toolCacheTtlSeconds (.rstr (jsonStringify (.obj kvs)))),
              trace := trace0 ++ [(name, spreadUserIp args userIp)] }
            [{ id := id2, name := name, arguments := argsStr }] =
          ([(id2, .obj kvs)],
           { backend := .up (storeSetex st now1
               (toolResultKey name (generateToolCacheKey name args))
               cfg.toolCacheTtlSeconds (.rstr (jsonStringify (.obj kvs)))),
             trace := trace0 ++ [(name, spreadUserIp args userIp)] })) ∧
      (∀ (r : Json),
        tool.execute (spreadUserIp args userIp) = .ok r →
        cacheableResult r = false →
        executeToolCalls cfg reg now1 userIp
            { backend := .up st, trace := trace0 }
            [{ id := id1, name := name, arguments := argsStr }] =
          ([(id1, r)],
           { backend := .up st,
             trace := trace0 ++ [(name, spreadUserIp args userIp)] })) := by
  intro cfg reg tool st now1 now2 userIp name argsStr id1 id2 args trace0
    hen hreg hparse hfresh
  constructor
  · intro kvs hexec hcacheable hround httl
    have hfirst : executeToolCalls cfg reg now1 userIp
        { backend := .up st, trace := trace0 }
        [{ id := id1, name := name, arguments := argsStr }] =
      ([(id1, .obj kvs)],
       { backend := .up (storeSetex st now1
           (toolResultKey name (generateToolCacheKey name args))
           cfg.toolCacheTtlSeconds (.rstr (jsonStringify (.obj kvs)))),
         trace := trace0 ++ [(name, spreadUserIp args userIp)] }) := by
      simp only [executeToolCalls, execOneCall, hreg, hparse, hen, if_true,
        getCachedToolResult, cacheReadPath, hfresh, execOneCall.execFresh,
        hexec, hcacheable, Bool.and_self, setCachedToolResult, cacheWritePath,
        stringify_obj_ne_sentinel, Bool.false_eq_true, if_false]
    refine ⟨hfirst, ?_⟩
    have hget := storeGet_setex_self st now1
      (toolResultKey name (generateToolCacheKey name args))
      cfg.toolCacheTtlSeconds (.rstr (jsonStringify (.obj kvs))) now2
    rw [if_pos httl] at hget
    simp only [executeToolCalls, execOneCall, hreg, hparse, hen, if_true,
      getCachedToolResult, cacheReadPath, hget, RVal.truthy,
      stringify_obj_ne_empty, Bool.not_true, Bool.false_eq_true, if_false,
      stringify_obj_ne_sentinel, stringify_obj_not_objPrefixed,
      Bool.or_self, hround, cacheableResult_truthy hcacheable]
  · intro r hexec hnc
    simp only [executeToolCalls, execOneCall, hreg, hparse, hen, if_true,
      getCachedToolResult, cacheReadPath, hfresh, execOneCall.execFresh,
      hexec, hnc, Bool.and_false, Bool.false_eq_true, if_false]

/-- **C2 witness**: a tool with a structured object result is executed
once; the second identical call is served from the cache. -/
theorem c2_tool_cache_idempotence_witness :
    executeToolCalls { toolCacheEnabled := true }
        [⟨"cv", "d", fun _ => .ok (.obj [("amount", .num 92)])⟩] 0 none
        { backend := .up [] }
        [{ id := "c1", name := "cv", arguments := "\x7b\x7d" }] =
      ([("c1", .obj [("amount", .num 92)])],
       { backend := .up (storeSetex [] 0
           (toolResultKey "cv" (generateToolCacheKey "cv" (.obj [])))
           600 (.rstr (jsonStringify (.obj [("amount", .num 92)])))),
         trace := [("cv", .obj [("userIp", .null)])] }) ∧
    executeToolCalls { toolCacheEnabled := true }
        [⟨"cv", "d", fun _ => .ok (.obj [("amount", .num 92)])⟩] 5 none
        { backend := .up (storeSetex [] 0
            (toolResultKey "cv" (generateToolCacheKey "cv" (.obj [])))
            600 (.rstr (jsonStringify (.obj [("amount", .num 92)])))),
          trace := [("cv", .obj [("userIp", .null)])] }
        [{ id := "c2", name := "cv", arguments := "\x7b\x7d" }] =
      ([("c2", .obj [("amount", .num 92)])],
       { backend := .up (storeSetex [] 0
           (toolResultKey "cv" (generateToolCacheKey "cv" (.obj [])))
           600 (.rstr (jsonStringify (.obj [("amount", .num 92)])))),
         trace := [("cv", .obj [("userIp", .null)])] }) :=
  (c2_tool_cache_idempotence { toolCacheEnabled := true }
    [⟨"cv", "d", fun _ => .ok (.obj [("amount", .num 92)])⟩]
    ⟨"cv", "d", fun _ => .ok (.obj [("amount", .num 92)])⟩ [] 0 5 none
    "cv" "\x7b\x7d" "c1" "c2" (.obj []) []
    rfl rfl rfl rfl).1 [("amount", .num 92)] rfl rfl rfl (by decide)

/-- `typeof content === 'string' ? content : fixed ceiling message`. -/
def contentOrCeiling : Option String → String
  | some c => c
  | none => maxToolCallsMessage

/-- The content the buffered loop reports at the ceiling, as determined by
the final turn (its assistant message is the transcript's last). -/
def lastTurnContent (t : Except UpErr BufTurn) : String :=
  match t with
  | .ok bt => contentOrCeiling bt.content
  | .error _ => maxToolCallsMessage

/-- A buffered turn that keeps the loop running (tool calls requested). -/
def bufTurnContinues (t : Except UpErr BufTurn) : Prop :=
  ∃ bt, t = .ok bt ∧ bt.tool_calls ≠ []

/-- A streamed turn that keeps the loop running: no upstream error and a
non-empty, hole-free accumulated tool-call list. -/
def streamTurnContinues (cfg : AgentCfg) (t : StreamTurn) : Prop :=
  t.err = none ∧
  (processChunks cfg.isReasoningModel t.chunks).1.tool_calls ≠ [] ∧
  (((processChunks cfg.isReasoningModel t.chunks).1.tool_calls.takeWhile
      Option.isSome).filterMap id).length =
    (processChunks cfg.isReasoningModel t.chunks).1.tool_calls.length

/-- The ceiling content of a transcript ending in an assistant message
followed only by tool messages. -/
theorem ceilingContent_snoc (msgs : List OAIMsg) (c : Option String)
    (tcs : Option (List ToolCall)) (tms : List OAIMsg)
    (h : ∀ m ∈ tms, (match m with
      | OAIMsg.assistant _ _ => False
      | _ => True)) :
    ceilingContent (msgs ++ [.assistant c tcs] ++ tms) = contentOrCeiling c := by
  unfold ceilingContent
  rw [List.filter_append, List.filter_append]
  have htms : tms.filter (fun m =>
      match m with | OAIMsg.assistant _ _ => true | _ => false) = [] := by
    rw [List.filter_eq_nil_iff]
    intro m hm
    have := h m hm
    cases m <;> simp_all
  rw [htms, List.append_nil, show (List.filter (fun m =>
      match m with | OAIMsg.assistant _ _ => true | _ => false)
      [OAIMsg.assistant c tcs]) = [OAIMsg.assistant c tcs] from rfl,
    List.getLast?_concat]
  cases c <;> rfl

/-- A continuing buffered turn makes the loop step `.next`, with the
appended assistant/tool messages. -/
theorem bufStep_continues {cfg : AgentCfg} {reg : Registry} {now : Nat}
    {userIp : Option String} {t : Except UpErr BufTurn}
    (h : bufTurnContinues t) (msgs : List OAIMsg) (ctx : ExecCtx) :
    ∃ bt results ctx2, t = .ok bt ∧ bt.tool_calls ≠ [] ∧
      bufStep cfg reg now userIp t msgs ctx =
        .next (msgs ++ [.assistant bt.content (some bt.tool_calls)] ++
          bt.tool_calls.map fun tc =>
            .tool (some (jsonStringify ((jsLookup results tc.id).getD .null)))
              (some tc.id))
          results ctx2 := by
  obtain ⟨bt, rfl, hne⟩ := h
  refine ⟨bt, (executeToolCalls cfg reg now userIp ctx bt.tool_calls).1,
    (executeToolCalls cfg reg now userIp ctx bt.tool_calls).2, rfl, hne, ?_⟩
  have hempty : bt.tool_calls.isEmpty = false := by
    simpa [List.isEmpty_iff] using hne
  simp [bufStep, hempty]

/-- All-continuing prefixes drive the buffered loop to its ceiling, whose
content is the last turn's assistant content when that content is a string
and the fixed ceiling message otherwise. -/
theorem bufLoopAux_ceiling (cfg : AgentCfg) (reg : Registry) (now : Nat)
    (userIp : Option String) (oracle : BufOracle) :
    ∀ (fuel iter : Nat) (msgs : List OAIMsg)
      (toolResults : List (String × Json)) (ctx : ExecCtx),
      (∀ i, i < fuel + 1 → bufTurnContinues (oracle (iter + i))) →
      ∃ tr, (bufLoopAux cfg reg now userIp oracle (fuel + 1) iter msgs
          toolResults ctx).result =
        .ok (lastTurnContent (oracle (iter + fuel)), tr) := by
  intro fuel
  induction fuel with
  | zero =>
      intro iter msgs toolResults ctx h
      obtain ⟨bt, results, ctx2, hok, hne, hstep⟩ :=
        @bufStep_continues cfg reg now userIp _ (h 0 (by omega)) msgs ctx
      simp only [Nat.add_zero] at hok hstep
      rw [bufLoopAux, hstep]
      dsimp only
      refine ⟨jsMergeAssoc toolResults results, ?_⟩
      simp only [bufLoopAux, Nat.add_zero, hok, lastTurnContent]
      rw [ceilingContent_snoc]
      intro m hm
      simp only [List.mem_map] at hm
      obtain ⟨tc, _, rfl⟩ := hm
      trivial
  | succ n ih =>
      intro iter msgs toolResults ctx h
      obtain ⟨bt, results, ctx2, hok, hne, hstep⟩ :=
        @bufStep_continues cfg reg now userIp _ (h 0 (by omega)) msgs ctx
      simp only [Nat.add_zero] at hok hstep
      rw [show n + 1 + 1 = (n + 1) + 1 from rfl, bufLoopAux, hstep]
      dsimp only
      obtain ⟨tr, htr⟩ := ih (iter + 1)
        (msgs ++ [.assistant bt.content (some bt.tool_calls)] ++
          bt.tool_calls.map fun tc =>
            .tool (some (jsonStringify ((jsLookup results tc.id).getD .null)))
              (some tc.id))
        (jsMergeAssoc toolResults results) ctx2 (fun i hi => by
          have := h (i + 1) (by omega)
          simpa [Nat.add_assoc, Nat.add_comm 1 i] using this)
      refine ⟨tr, ?_⟩
      simpa [show iter + 1 + n = iter + (n + 1) by omega] using htr

/-- A continuing streamed turn makes the loop step `.next`. -/
theorem streamStep_continues {cfg : AgentCfg} {reg : Registry} {now : Nat}
    {userIp : Option String} {t : StreamTurn}
    (h : streamTurnContinues cfg t) (msgs : List OAIMsg) (ctx : ExecCtx) :
    ∃ evs msgs2 ctx2,
      streamStep cfg reg now userIp t msgs ctx = .next evs msgs2 ctx2 := by
  obtain ⟨herr, hne, hlen⟩ := h
  have hempty : (processChunks cfg.isReasoningModel t.chunks).1.tool_calls.isEmpty
      = false := by simpa [List.isEmpty_iff] using hne
  have hlt : ¬ ((((processChunks cfg.isReasoningModel
      t.chunks).1.tool_calls.takeWhile Option.isSome).filterMap id).length <
        (processChunks cfg.isReasoningModel t.chunks).1.tool_calls.length) := by
    omega
  simp only [streamStep, herr, hempty, Bool.false_eq_true, if_false,
    if_neg hlt]
  exact ⟨_, _, _, rfl⟩

/-- All-continuing prefixes drive the streaming loop to its ceiling: the
event sequence ends with the fixed "maximum tool calls" content event and
no error is recorded. -/
theorem streamLoopAux_ceiling (cfg : AgentCfg) (reg : Registry) (now : Nat)
    (userIp : Option String) (oracle : StreamOracle) :
    ∀ (fuel iter : Nat) (msgs : List OAIMsg) (ctx : ExecCtx),
      (∀ i, i < fuel → streamTurnContinues cfg (oracle (iter + i))) →
      (streamLoopAux cfg reg now userIp oracle fuel iter msgs
          ctx).events.getLast? = some (.content maxToolCallsMessage) ∧
      (streamLoopAux cfg reg now userIp oracle fuel iter msgs ctx).err =
        none := by
  intro fuel
  induction fuel with
  | zero => intro iter msgs ctx h; exact ⟨rfl, rfl⟩
  | succ n ih =>
      intro iter msgs ctx h
      obtain ⟨evs, msgs2, ctx2, hstep⟩ :=
        @streamStep_continues cfg reg now userIp _ (h 0 (by omega)) msgs ctx
      simp only [Nat.add_zero] at hstep
      rw [streamLoopAux, hstep]
      dsimp only
      obtain ⟨hlast, herr⟩ := ih (iter + 1) msgs2 ctx2 (fun i hi => by
        have := h (i + 1) (by omega)
        simpa [Nat.add_assoc, Nat.add_comm 1 i] using this)
      have hne : (streamLoopAux cfg reg now userIp oracle n (iter + 1) msgs2
          ctx2).events ≠ [] := by
        intro hcontra
        rw [hcontra] at hlast
        simp at hlast
      exact ⟨by
        rw [List.getLast?_append_of_ne_nil _ hne]
        exact hlast, herr⟩

/-- **C1 counterexample**: the buffered loop ignores the configured
`MAX_ITERATIONS` (here 2) and performs its hardcoded 5 iterations; and at
the ceiling it returns the last assistant turn's partial content
("Working on it"), not the fixed "reached maximum tool calls" message. -/
theorem c1_counterexample :
    (AgentCfg.maxIterations { maxIterations := 2 } = 2) ∧
    (processConversationWithTools { maxIterations := 2 }
        [⟨"t", "d", fun _ => .ok (.obj [("ok", .bool true)])⟩] 0 none []
        (fun _ => Except.ok { content := some "Working on it", tool_calls := [{ id := "c", name := "t", arguments := "\x7b\x7d" }] })
        { backend := .disabled }).upstreamCalls = 5 ∧
    (processConversationWithTools { maxIterations := 2 }
        [⟨"t", "d", fun _ => .ok (.obj [("ok", .bool true)])⟩] 0 none []
        (fun _ => Except.ok { content := some "Working on it", tool_calls := [{ id := "c", name := "t", arguments := "\x7b\x7d" }] })
        { backend := .disabled }).result =
      .ok ("Working on it", [("c", .obj [("ok", .bool true)])]) ∧
    "Working on it" ≠ maxToolCallsMessage :=
  ⟨rfl, rfl, rfl, by decide⟩

/-- **C1 (amended)**: the *streaming* loop performs at most the
configurable `MAX_ITERATIONS` (default 5) upstream calls and, when every
turn within the ceiling requests tool calls, terminates with the fixed
"reached maximum tool calls" content event and no error; the *buffered*
loop's ceiling is the hardcoded constant 5, independent of the
configuration, and at its ceiling the returned content is the final
assistant turn's content whenever that content is a string, with the fixed
message only when it is null. -/
theorem c1_iteration_ceiling :
    (∀ (cfg : AgentCfg) (reg : Registry) (now : Nat)
       (userIp : Option String) (oracle : StreamOracle) (msgs : List OAIMsg)
       (ctx : ExecCtx),
       (streamLoopAux cfg reg now userIp oracle cfg.maxIterations 0 msgs
          ctx).upstreamCalls ≤ cfg.maxIterations) ∧
    (∀ (cfg : AgentCfg) (reg : Registry) (now : Nat)
       (userIp : Option String) (oracle : StreamOracle) (fuel iter : Nat)
       (msgs : List OAIMsg) (ctx : ExecCtx),
       (∀ i, i < fuel → streamTurnContinues cfg (oracle (iter + i))) →
       (streamLoopAux cfg reg now userIp oracle fuel iter msgs
          ctx).events.getLast? = some (.content maxToolCallsMessage) ∧
       (streamLoopAux cfg reg now userIp oracle fuel iter msgs ctx).err =
         none) ∧
    (∀ (cfg : AgentCfg) (reg : Registry) (now : Nat)
       (userIp : Option String) (msgs : List OAIMsg) (oracle : BufOracle)
       (ctx : ExecCtx),
       (processConversationWithTools cfg reg now userIp msgs oracle
          ctx).upstreamCalls ≤ 5) ∧
    (∀ (cfg : AgentCfg) (reg : Registry) (now : Nat)
       (userIp : Option String) (oracle : BufOracle) (msgs : List OAIMsg)
       (ctx : ExecCtx),
       cfg.openaiConfigured = true →
       (∀ i, i < 5 → bufTurnContinues (oracle i)) →
       ∃ tr, (processConversationWithTools cfg reg now userIp msgs oracle
           ctx).result = .ok (lastTurnContent (oracle 4), tr)) := by
  refine ⟨?_, ?_, ?_, ?_⟩
  · intro cfg reg now userIp oracle msgs ctx
    exact streamLoopAux_upstream_le cfg reg now userIp oracle _ _ _ _
  · intro cfg reg now userIp oracle fuel iter msgs ctx h
    exact streamLoopAux_ceiling cfg reg now userIp oracle fuel iter msgs ctx h
  · intro cfg reg now userIp msgs oracle ctx
    unfold processConversationWithTools
    by_cases h : cfg.openaiConfigured <;> simp [h]
    exact bufLoopAux_upstream_le cfg reg now userIp oracle 5 0 msgs [] ctx
  · intro cfg reg now userIp oracle msgs ctx hcfg h
    unfold processConversationWithTools
    rw [hcfg]
    simpa using bufLoopAux_ceiling cfg reg now userIp oracle 4 0 msgs [] ctx
      (by simpa using h)

/-- **C1 witness**: a streaming run whose single allowed iteration
requests a tool call ends with the fixed ceiling event; a buffered run
whose five turns all request tool calls returns the final turn's
content. -/
theorem c1_iteration_ceiling_witness :
    ((streamLoopAux { maxIterations := 1 } [] 0 none
        (fun _ => { chunks := [{ tool_calls := [{ index := 0, id := some "c", name := some "t", args := some "\x7b\x7d" }] }] })
        1 0 [] { backend := .disabled }).events.getLast? =
      some (.content maxToolCallsMessage)) ∧
    ∃ tr, (processConversationWithTools {}
        [⟨"t", "d", fun _ => .ok (.obj [("ok", .bool true)])⟩] 0 none []
        (fun _ => Except.ok { content := some "part", tool_calls := [{ id := "c", name := "t", arguments := "\x7b\x7d" }] })
        { backend := .disabled }).result = .ok ("part", tr) := by
  have hcont : streamTurnContinues { maxIterations := 1 }
      ({ chunks := [{ tool_calls := [{ index := 0, id := some "c", name := some "t", args := some "\x7b\x7d" }] }] } : StreamTurn) :=
    ⟨rfl, by decide, by decide⟩
  have hbuf : bufTurnContinues
      (Except.ok { content := some "part", tool_calls := [{ id := "c", name := "t", arguments := "\x7b\x7d" }] } :
        Except UpErr BufTurn) :=
    ⟨_, rfl, by decide⟩
  exact ⟨(c1_iteration_ceiling.2.1 { maxIterations := 1 } [] 0 none
      (fun _ => { chunks := [{ tool_calls := [{ index := 0, id := some "c", name := some "t", args := some "\x7b\x7d" }] }] })
      1 0 [] { backend := .disabled } (fun _ _ => hcont)).1,
    c1_iteration_ceiling.2.2.2 {}
      [⟨"t", "d", fun _ => .ok (.obj [("ok", .bool true)])⟩] 0 none
      (fun _ => Except.ok { content := some "part", tool_calls := [{ id := "c", name := "t", arguments := "\x7b\x7d" }] })
      [] { backend := .disabled } rfl (fun _ _ => hbuf)⟩

/-- The events of one streaming-loop step, whatever its outcome. -/
def StreamStepRes.events : StreamStepRes → List Event
  | .done evs _ => evs
  | .fail evs _ _ => evs
  | .next evs _ _ => evs

/-- Chunk processing emits no `complete` event. -/
theorem processChunk_no_complete (b : Bool) (acc : TurnAcc) (ch : Chunk) :
    ∀ c e, Event.complete c e ∉ (processChunk b acc ch).2 := by
  intro c e
  unfold processChunk
  dsimp only
  rcases ch.reasoningTokens with _ | rt <;> split_ifs <;>
    simp_all <;> split_ifs <;> simp_all

/-- A turn's chunk loop emits no `complete` event. -/
theorem processChunks_no_complete (b : Bool) (chunks : List Chunk) :
    ∀ c e, Event.complete c e ∉ (processChunks b chunks).2 := by
  suffices h : ∀ (p : TurnAcc × List Event),
      (∀ c e, Event.complete c e ∉ p.2) →
      ∀ c e, Event.complete c e ∉ (chunks.foldl (fun p ch =>
        let q := processChunk b p.1 ch
        (q.1, p.2 ++ q.2)) p).2 by
    intro c e
    exact h ({}, []) (by simp) c e
  induction chunks with
  | nil => intro p hp c e; simpa [processChunks] using hp c e
  | cons ch tl ih =>
      intro p hp c e
      simp only [List.foldl_cons]
      exact ih _ (fun c2 e2 => by
        simp only [List.mem_append, not_or]
        exact ⟨hp c2 e2, processChunk_no_complete b p.1 ch c2 e2⟩) c e

/-- One streamed tool call emits no `complete` event. -/
theorem execOneStream_no_complete (cfg : AgentCfg) (reg : Registry)
    (now : Nat) (userIp : Option String) (ctx : ExecCtx) (tc : ToolCall) :
    ∀ c e, Event.complete c e ∉
      (execOneStream cfg reg now userIp ctx tc).2.2 := by
  intro c e
  unfold execOneStream
  dsimp only
  rcases getTool reg tc.name with _ | tool
  · simp
  · dsimp only
    rcases jsonParse tc.arguments with _ | args
    · simp
    · dsimp only
      split
      · simp
      · split <;> simp

/-- Sequential streamed tool execution emits no `complete` event. -/
theorem execStreamCalls_no_complete (cfg : AgentCfg) (reg : Registry)
    (now : Nat) (userIp : Option String) :
    ∀ (calls : List ToolCall) (ctx : ExecCtx) (c : String) (e : Bool),
      Event.complete c e ∉ (execStreamCalls cfg reg now userIp ctx calls).2.2 := by
  intro calls
  induction calls with
  | nil => intro ctx c e; simp [execStreamCalls]
  | cons tc rest ih =>
      intro ctx c e
      simp only [execStreamCalls, List.mem_append, not_or]
      exact ⟨execOneStream_no_complete cfg reg now userIp ctx tc c e,
        ih _ c e⟩

/-- A streaming-loop step emits no `complete` event. -/
theorem streamStep_no_complete (cfg : AgentCfg) (reg : Registry) (now : Nat)
    (userIp : Option String) (t : StreamTurn) (msgs : List OAIMsg)
    (ctx : ExecCtx) :
    ∀ c e, Event.complete c e ∉
      (streamStep cfg reg now userIp t msgs ctx).events := by
  intro c e
  unfold streamStep
  dsimp only
  have hpre : Event.complete c e ∉
      (if cfg.isReasoningModel then [Event.reasoning_start] else []) := by
    split <;> simp
  have hchunks := processChunks_no_complete cfg.isReasoningModel t.chunks c e
  rcases t.err with _ | err
  · dsimp only
    split
    · simp only [StreamStepRes.events, List.mem_append, not_or]
      exact ⟨⟨hpre, hchunks⟩, by simp [maxToolCallsMessage]⟩
    · split
      · simp only [StreamStepRes.events, List.mem_append, not_or]
        exact ⟨⟨hpre, hchunks⟩,
          execStreamCalls_no_complete cfg reg now userIp _ _ c e⟩
      · simp only [StreamStepRes.events, List.mem_append, not_or]
        exact ⟨⟨hpre, hchunks⟩,
          execStreamCalls_no_complete cfg reg now userIp _ _ c e⟩
  · simp only [StreamStepRes.events, List.mem_append, not_or]
    exact ⟨hpre, hchunks⟩

/-- The streaming loop emits no `complete` event: termination is the entry
point's job. -/
theorem streamLoopAux_no_complete (cfg : AgentCfg) (reg : Registry)
    (now : Nat) (userIp : Option String) (oracle : StreamOracle) :
    ∀ (fuel iter : Nat) (msgs : List OAIMsg) (ctx : ExecCtx) (c : String)
      (e : Bool),
      Event.complete c e ∉
        (streamLoopAux cfg reg now userIp oracle fuel iter msgs ctx).events := by
  intro fuel
  induction fuel with
  | zero => intro iter msgs ctx c e; simp [streamLoopAux, maxToolCallsMessage]
  | succ n ih =>
      intro iter msgs ctx c e
      rw [streamLoopAux]
      cases hstep : streamStep cfg reg now userIp (oracle iter) msgs ctx with
      | done evs ctx2 =>
          have := streamStep_no_complete cfg reg now userIp (oracle iter)
            msgs ctx c e
          rw [hstep] at this
          simpa [StreamStepRes.events] using this
      | fail evs err ctx2 =>
          have := streamStep_no_complete cfg reg now userIp (oracle iter)
            msgs ctx c e
          rw [hstep] at this
          simpa [StreamStepRes.events] using this
      | next evs nextMsgs ctx2 =>
          have := streamStep_no_complete cfg reg now userIp (oracle iter)
            msgs ctx c e
          rw [hstep] at this
          simp only [StreamStepRes.events] at this
          simp only [List.mem_append, not_or]
          exact ⟨this, ih _ _ _ c e⟩

/-- The mock path's events are `content_stream`s followed by one final
`complete`. -/
theorem mockEvents_shape (mockData : Option Json) :
    ∀ c e, Event.complete c e ∈ mockEvents mockData →
      Event.complete c e =
        .complete "Mock conversation completed successfully" false := by
  intro c e h
  simp only [mockEvents, List.mem_append] at h
  rcases h with h | h
  · exfalso
    simp only [List.mem_flatMap] at h
    obtain ⟨p, _, hp⟩ := h
    rcases List.mem_append.mp hp with hp | hp
    · revert hp; split <;> simp
    · simp only [List.mem_map] at hp
      obtain ⟨ch, _, hcontra⟩ := hp
      exact Event.noConfusion hcontra
  · simpa using h

/-- **C9**: every streamed request's event sequence contains exactly one
`complete` event and ends with it — on the missing-credential path, the
mock path, the normal path and the upstream-error path alike. -/
theorem c9_exactly_one_complete :
    ∀ (cfg : AgentCfg) (reg : Registry) (b : Backend) (now : Nat)
      (nowIso genSid : String) (request : AgentRequest)
      (oracle : StreamOracle),
      ((processRequestStream cfg reg b now nowIso genSid request
          oracle).1.filter fun ev =>
            match ev with
            | Event.complete _ _ => true
            | _ => false).length = 1 ∧
      ∃ c e, (processRequestStream cfg reg b now nowIso genSid request
          oracle).1.getLast? = some (.complete c e) := by
  intro cfg reg b now nowIso genSid request oracle
  unfold processRequestStream
  by_cases h1 : cfg.openaiConfigured
  · simp only [h1, Bool.not_true, Bool.false_eq_true, if_false]
    by_cases h2 : cfg.mockEnabled
    · simp only [h2, if_true]
      constructor
      · rw [show mockEvents cfg.mockData =
            ((mockMessages cfg.mockData).enum.flatMap fun p =>
              (if p.1 > 0 then [Event.content_stream "\n\n---\n\n"] else []) ++
                p.2.data.map fun ch => Event.content_stream ⟨[ch]⟩) ++
            [.complete "Mock conversation completed successfully" false]
          from rfl, List.filter_append]
        have hpre : (((mockMessages cfg.mockData).enum.flatMap fun p =>
            (if p.1 > 0 then [Event.content_stream "\n\n---\n\n"] else []) ++
              p.2.data.map fun ch => Event.content_stream ⟨[ch]⟩).filter
              fun ev => match ev with
                | Event.complete _ _ => true
                | _ => false) = [] := by
          rw [List.filter_eq_nil_iff]
          intro ev hev
          simp only [List.mem_flatMap] at hev
          obtain ⟨p, _, hp⟩ := hev
          rcases List.mem_append.mp hp with hp | hp
          · have hev2 : ev = Event.content_stream "\n\n---\n\n" := by
              revert hp; split <;> simp
            subst hev2; simp
          · obtain ⟨ch2, _, hev2⟩ := List.mem_map.mp hp
            subst hev2; simp
        rw [hpre]
        rfl
      · exact ⟨_, _, by
          rw [show mockEvents cfg.mockData =
            ((mockMessages cfg.mockData).enum.flatMap fun p =>
              (if p.1 > 0 then [Event.content_stream "\n\n---\n\n"] else []) ++
                p.2.data.map fun ch => Event.content_stream ⟨[ch]⟩) ++
            [.complete "Mock conversation completed successfully" false]
          from rfl, List.getLast?_concat]⟩
    · simp only [h2, Bool.false_eq_true, if_false]
      set out := streamLoopAux cfg reg now request.userIp oracle
        cfg.maxIterations 0
        (OAIMsg.system (some (replacePlaceholders cfg.systemPrompt nowIso
          request.memories)) ::
          convertConversationToOpenAI
            (request.conversationHistory.getD [] ++
              [{ role := Role.user, content := some request.message,
                 timestamp := some nowIso }]))
        { backend := b } with hout
      have hno : ∀ c e, Event.complete c e ∉ out.events := by
        rw [hout]
        intro c e
        exact streamLoopAux_no_complete cfg reg now request.userIp oracle
          cfg.maxIterations 0 _ _ c e
      have hfilter : (out.events.filter fun ev => match ev with
          | Event.complete _ _ => true
          | _ => false) = [] := by
        rw [List.filter_eq_nil_iff]
        intro ev hev
        cases ev with
        | complete c e => exact fun _ => hno c e hev
        | _ => simp
      cases herr : out.err with
      | none =>
          dsimp only
          exact ⟨by rw [List.filter_append, hfilter]; rfl,
            _, _, List.getLast?_concat _⟩
      | some err =>
          dsimp only
          exact ⟨by rw [List.filter_append, hfilter]; rfl,
            _, _, List.getLast?_concat _⟩
  · simp only [h1, Bool.not_false, if_true]
    exact ⟨rfl, _, _, rfl⟩

/-- Deleting one key leaves every other key's binding unchanged. -/
theorem lookup_storeDel_ne (st : Store) (key key2 : String)
    (h : key2 ≠ key) : (storeDel st key).lookup key2 = st.lookup key2 := by
  induction st with
  | nil => rfl
  | cons kv tl ih =>
      rcases kv with ⟨k, e⟩
      by_cases hk : k = key
      · subst hk
        simp only [storeDel, List.filter_cons, bne_self_eq_false,
          Bool.false_eq_true, if_false]
        rw [show List.lookup key2 (List.filter (fun kv => kv.1 != k) tl) =
            List.lookup key2 tl from ih]
        simp [List.lookup, beq_eq_false_iff_ne.mpr h]
      · have hb : (k != key) = true := bne_iff_ne.mpr hk
        simp only [storeDel, List.filter_cons, hb, if_true]
        by_cases hk2 : key2 = k
        · simp [List.lookup, beq_iff_eq.mpr hk2]
        · simp only [List.lookup, beq_eq_false_iff_ne.mpr hk2]
          exact ih

/-- Re-deleting after an overriding insert collapses. -/
theorem storeDel_cons_self (st : Store) (key : String) (e : Entry) :
    storeDel ((key, e) :: storeDel st key) key = storeDel st key := by
  simp only [storeDel, List.filter_cons, bne_self_eq_false,
    Bool.false_eq_true, if_false]
  rw [List.filter_filter]
  simp

/-- A dead key stays dead as time advances. -/
theorem storeGet_mono_none (st : Store) (t t2 : Nat) (key : String)
    (h : storeGet st t key = none) (ht : t ≤ t2) :
    storeGet st t2 key = none := by
  unfold storeGet at h ⊢
  cases hl : st.lookup key with
  | none => rfl
  | some e =>
      rw [hl] at h
      rcases e with ⟨v, _ | exp⟩
      · simp [Entry.live] at h
      · simp only [Entry.live] at h ⊢
        split at h
        · simp at h
        · simp_all
          omega

/-- The two per-identifier keys are distinct. -/
theorem rateLimitKey_ne_blockedKey (id1 id2 : String) :
    rateLimitKey id1 ≠ blockedKey id2 := by
  intro h
  have hd := congrArg String.data h
  rw [rateLimitKey, blockedKey, String.data_append, String.data_append] at hd
  have h1 : ("rate_limit:" : String).data =
      ['r', 'a', 't', 'e', '_', 'l', 'i', 'm', 'i', 't', ':'] := rfl
  have h2 : ("blocked:" : String).data =
      ['b', 'l', 'o', 'c', 'k', 'e', 'd', ':'] := rfl
  rw [h1, h2] at hd
  exact absurd (List.head_eq_of_cons_eq hd) (by decide)

/-- Distinct identifiers use distinct window keys. -/
theorem rateLimitKey_inj (id1 id2 : String) (h : id1 ≠ id2) :
    rateLimitKey id1 ≠ rateLimitKey id2 := by
  intro hcontra
  apply h
  have hd := congrArg String.data hcontra
  rw [rateLimitKey, rateLimitKey, String.data_append, String.data_append]
    at hd
  have := List.append_cancel_left hd
  cases id1; cases id2
  exact congrArg String.mk (by simpa using this)

/-- Distinct identifiers use distinct block keys. -/
theorem blockedKey_inj (id1 id2 : String) (h : id1 ≠ id2) :
    blockedKey id1 ≠ blockedKey id2 := by
  intro hcontra
  apply h
  have hd := congrArg String.data hcontra
  rw [blockedKey, blockedKey, String.data_append, String.data_append] at hd
  have := List.append_cancel_left hd
  cases id1; cases id2
  exact congrArg String.mk (by simpa using this)

/-- Dividing a whole number of thousandths by `1000` with `Math.ceil`
recovers the integer. -/
theorem jsCeilDiv_mul_thousand (n : Int) : jsCeilDiv (n * 1000) 1000 = n := by
  unfold jsCeilDiv
  omega

/-- While the block key is live, the guard rejects with the block's
remaining TTL and leaves the store untouched. -/
theorem canActivate_blocked (cfg : RateCfg) (st : Store) (t : Nat)
    (id : String) (hen : cfg.enabled = true) (v : RVal)
    (hbl : storeGet st t (blockedKey id) = some v) :
    canActivate cfg (.up st) t id =
      (.rejected (storeTtl st t (blockedKey id)), .up st) := by
  have hex : storeExists st t (blockedKey id) = true := by
    simp [storeExists, hbl]
  simp [canActivate, hen, checkRateLimit, getBlockInfo, hex,
    Bind.bind, Except.bind, pure, Except.pure, jsCeilDiv_mul_thousand]

/-- With both per-identifier keys dead, a request is admitted with full
remaining quota, the counter becomes `1`, and the window TTL is stamped. -/
theorem canActivate_start (cfg : RateCfg) (id : String) (st : Store)
    (t : Nat) (hen : cfg.enabled = true) (hmax : 1 ≤ cfg.maxRequests)
    (hrl : storeGet st t (rateLimitKey id) = none)
    (hbl : storeGet st t (blockedKey id) = none) :
    canActivate cfg (.up st) t id =
      (.admitted (some ((cfg.maxRequests : Int) - 1,
        (t : Int) * 1000 + (cfg.windowSeconds : Int) * 1000)),
       .up (windowState id st (t + cfg.windowSeconds) 1)) := by
  have hex : storeExists st t (blockedKey id) = false := by
    simp [storeExists, hbl]
  have hincr : storeIncr st t (rateLimitKey id) =
      (1, storeSet st (rateLimitKey id) (.rint 1)) := by
    unfold storeIncr
    cases hl : st.lookup (rateLimitKey id) with
    | none => rfl
    | some e =>
        have : e.live t = false := by
          unfold storeGet at hrl
          rw [hl] at hrl
          by_cases hlive : e.live t
          · simp [hlive] at hrl
          · simpa using hlive
        simp [this]
  have hexpire : storeExpire (storeSet st (rateLimitKey id) (.rint 1)) t
      (rateLimitKey id) cfg.windowSeconds =
        windowState id st (t + cfg.windowSeconds) 1 := by
    simp [storeExpire, storeSet, List.lookup, Entry.live, windowState,
      storeDel_cons_self]
  have hallow : ((1 : Int) ≤ (cfg.maxRequests : Int)) := by exact_mod_cast hmax
  have hrem : max (0 : Int) ((cfg.maxRequests : Int) - 1) =
      (cfg.maxRequests : Int) - 1 := by
    rw [max_eq_right]
    omega
  simp [canActivate, hen, checkRateLimit, getBlockInfo, hex,
    incrementRateLimit, hincr, hexpire, Bind.bind, Except.bind, pure,
    Except.pure, hallow, hrem]

/-- Mid-window admission: under a dead block key and a live counter `k`
with `k + 1 ≤ maxRequests`, the request is admitted, the counter is bumped
and the window expiry is left unchanged (the TTL is set only on the very
first increment of a window). -/
theorem canActivate_mid (cfg : RateCfg) (id : String) (st : Store)
    (t t0 : Nat) (k : Int) (hen : cfg.enabled = true)
    (hk : 1 ≤ k) (hcnt : k + 1 ≤ (cfg.maxRequests : Int))
    (hlk : st.lookup (rateLimitKey id) = some ⟨.rint k, some t0⟩)
    (hlive : t < t0)
    (hbl : storeGet st t (blockedKey id) = none) :
    canActivate cfg (.up st) t id =
      (.admitted (some ((cfg.maxRequests : Int) - (k + 1),
        (t : Int) * 1000 + ((t0 : Int) - t) * 1000)),
       .up (windowState id st t0 (k + 1))) := by
  have hex : storeExists st t (blockedKey id) = false := by
    simp [storeExists, hbl]
  have hlv : Entry.live ⟨.rint k, some t0⟩ t = true := by
    simp [Entry.live]
    omega
  have hincr : storeIncr st t (rateLimitKey id) =
      (k + 1, windowState id st t0 (k + 1)) := by
    simp [storeIncr, hlk, hlv, windowState]
  have hne : (k + 1 == (1 : Int)) = false := by
    simp only [beq_eq_false_iff_ne, ne_eq]
    omega
  have hlk2 : (windowState id st t0 (k + 1)).lookup (rateLimitKey id) =
      some ⟨.rint (k + 1), some t0⟩ := by
    simp [windowState, List.lookup]
  have httl : storeTtl (windowState id st t0 (k + 1)) t (rateLimitKey id) =
      (t0 : Int) - t := by
    simp [storeTtl, hlk2, hlv, Entry.live]
    omega
  have hget : storeGet (windowState id st t0 (k + 1)) t (rateLimitKey id) =
      some (.rint (k + 1)) := by
    simp [storeGet, hlk2, Entry.live]
    omega
  have hallow : (k + 1 ≤ (cfg.maxRequests : Int)) := hcnt
  have hrem : max (0 : Int) ((cfg.maxRequests : Int) - (k + 1)) =
      (cfg.maxRequests : Int) - (k + 1) := by
    rw [max_eq_right]
    omega
  simp [canActivate, hen, checkRateLimit, getBlockInfo, hex,
    incrementRateLimit, hincr, hne, getRateLimitInfo, hget, httl,
    Bind.bind, Except.bind, pure, Except.pure, hallow, hrem]

/-- Window overflow: a post-increment count above `maxRequests` rejects
with `retryAfter = blockDurationSeconds` and establishes the block key
under that TTL. -/
theorem canActivate_reject (cfg : RateCfg) (id : String) (st : Store)
    (t t0 : Nat) (k : Int) (hen : cfg.enabled = true)
    (hk : 1 ≤ k) (hover : (cfg.maxRequests : Int) < k + 1)
    (hlk : st.lookup (rateLimitKey id) = some ⟨.rint k, some t0⟩)
    (hlive : t < t0)
    (hbl : storeGet st t (blockedKey id) = none) :
    canActivate cfg (.up st) t id =
      (.rejected (cfg.blockDurationSeconds : Int),
       .up (storeSetex (windowState id st t0 (k + 1)) t (blockedKey id)
         cfg.blockDurationSeconds (.rstr "1"))) := by
  have hex : storeExists st t (blockedKey id) = false := by
    simp [storeExists, hbl]
  have hlv : Entry.live ⟨.rint k, some t0⟩ t = true := by
    simp [Entry.live]
    omega
  have hincr : storeIncr st t (rateLimitKey id) =
      (k + 1, windowState id st t0 (k + 1)) := by
    simp [storeIncr, hlk, hlv, windowState]
  have hne : (k + 1 == (1 : Int)) = false := by
    simp only [beq_eq_false_iff_ne, ne_eq]
    omega
  have hlk2 : (windowState id st t0 (k + 1)).lookup (rateLimitKey id) =
      some ⟨.rint (k + 1), some t0⟩ := by
    simp [windowState, List.lookup]
  have hget : storeGet (windowState id st t0 (k + 1)) t (rateLimitKey id) =
      some (.rint (k + 1)) := by
    simp [storeGet, hlk2, Entry.live]
    omega
  have hnallow : ¬ (k + 1 ≤ (cfg.maxRequests : Int)) := by omega
  simp [canActivate, hen, checkRateLimit, getBlockInfo, hex,
    incrementRateLimit, hincr, hne, getRateLimitInfo, hget,
    Bind.bind, Except.bind, pure, Except.pure, hnallow, setBlock]

/-- `SET` leaves every other key's binding unchanged. -/
theorem lookup_storeSet_ne (st : Store) (key key2 : String) (v : RVal)
    (h : key2 ≠ key) : (storeSet st key v).lookup key2 = st.lookup key2 := by
  simp only [storeSet, List.lookup, beq_eq_false_iff_ne.mpr h]
  exact lookup_storeDel_ne st key key2 h

/-- `SETEX` leaves every other key's binding unchanged. -/
theorem lookup_storeSetex_ne (st : Store) (now : Nat) (key key2 : String)
    (ttl : Nat) (v : RVal) (h : key2 ≠ key) :
    (storeSetex st now key ttl v).lookup key2 = st.lookup key2 := by
  simp only [storeSetex, List.lookup, beq_eq_false_iff_ne.mpr h]
  exact lookup_storeDel_ne st key key2 h

/-- `EXPIRE` leaves every other key's binding unchanged. -/
theorem lookup_storeExpire_ne (st : Store) (now : Nat) (key key2 : String)
    (ttl : Nat) (h : key2 ≠ key) :
    (storeExpire st now key ttl).lookup key2 = st.lookup key2 := by
  unfold storeExpire
  cases hl : st.lookup key with
  | none => rfl
  | some e =>
      by_cases hlv : e.live now
      · simp only [hlv, if_true, List.lookup, beq_eq_false_iff_ne.mpr h]
        exact lookup_storeDel_ne st key key2 h
      · simp [hlv]

/-- `INCR` leaves every other key's binding unchanged. -/
theorem lookup_storeIncr_ne (st : Store) (now : Nat) (key key2 : String)
    (h : key2 ≠ key) :
    (storeIncr st now key).2.lookup key2 = st.lookup key2 := by
  unfold storeIncr
  cases hl : st.lookup key with
  | none => exact lookup_storeSet_ne st key key2 _ h
  | some e =>
      by_cases hlv : e.live now
      · simp only [hlv, if_true, List.lookup, beq_eq_false_iff_ne.mpr h]
        exact lookup_storeDel_ne st key key2 h
      · simp only [hlv, Bool.false_eq_true, if_false]
        exact lookup_storeSet_ne st key key2 _ h

/-- On a healthy store, `incrementRateLimit` succeeds and touches only the
identifier's window key. -/
theorem incrementRateLimit_up_lookup (st : Store) (t : Nat) (id : String)
    (w : Nat) (key : String) (h1 : key ≠ rateLimitKey id) :
    ∃ c f st2, incrementRateLimit (.up st) t id w =
        .ok ((c, f), .up st2) ∧ st2.lookup key = st.lookup key := by
  unfold incrementRateLimit
  dsimp only
  split
  · exact ⟨_, _, _, rfl,
      (lookup_storeExpire_ne _ t (rateLimitKey id) key w h1).trans
        (lookup_storeIncr_ne st t (rateLimitKey id) key h1)⟩
  · exact ⟨_, _, _, rfl, lookup_storeIncr_ne st t (rateLimitKey id) key h1⟩

/-- On a healthy store, `checkRateLimit` succeeds and touches only the
identifier's window key. -/
theorem checkRateLimit_up_lookup (cfg : RateCfg) (st : Store) (t : Nat)
    (id key : String) (h1 : key ≠ rateLimitKey id) :
    ∃ r st2, checkRateLimit cfg (.up st) t id =
        Except.ok (r, Backend.up st2) ∧ st2.lookup key = st.lookup key := by
  unfold checkRateLimit
  by_cases hex : storeExists st t (blockedKey id)
  · simp only [getBlockInfo, hex, if_true, Bind.bind, Except.bind, pure,
      Except.pure]
    exact ⟨_, st, rfl, rfl⟩
  · obtain ⟨c, f, st2, hinc, hpres⟩ :=
      incrementRateLimit_up_lookup st t id cfg.windowSeconds key h1
    simp only [getBlockInfo, hex, Bool.false_eq_true, if_false, Bind.bind,
      Except.bind, hinc, pure, Except.pure]
    cases f
    · simp only [Bool.false_eq_true, if_false, getRateLimitInfo]
      exact ⟨_, st2, rfl, hpres⟩
    · simp only [if_true]
      exact ⟨_, st2, rfl, hpres⟩

/-- A guard admission check touches only the identifier's own two keys. -/
theorem canActivate_lookup_ne (cfg : RateCfg) (id : String) (st st2 : Store)
    (t : Nat) (key : String) (h1 : key ≠ rateLimitKey id)
    (h2 : key ≠ blockedKey id) (o : AdmitOutcome)
    (h : canActivate cfg (.up st) t id = (o, .up st2)) :
    st2.lookup key = st.lookup key := by
  unfold canActivate at h
  by_cases henb : cfg.enabled
  · simp only [henb, Bool.not_true, Bool.false_eq_true, if_false] at h
    obtain ⟨r, stc, hck, hpres⟩ :=
      checkRateLimit_up_lookup cfg st t id key h1
    rw [hck] at h
    by_cases hbl : r.blocked
    · simp only [hbl, if_true] at h
      cases h
      exact hpres
    · simp only [hbl, Bool.false_eq_true, if_false] at h
      by_cases hal : r.allowed
      · simp only [hal, Bool.not_true, Bool.false_eq_true, if_false] at h
        cases h
        exact hpres
      · simp only [Bool.not_eq_true] at hal
        simp only [hal, Bool.not_false, if_true, setBlock] at h
        cases h
        exact (lookup_storeSetex_ne stc t (blockedKey id) key
          cfg.blockDurationSeconds (.rstr "1") h2).trans hpres
  · simp only [Bool.not_eq_true] at henb
    simp only [henb, Bool.not_false, if_true, Prod.mk.injEq] at h
    cases h.2
    rfl

/-- A guard admission check of one identifier never changes another
identifier's window or block key. -/
theorem canActivate_preserves_other (cfg : RateCfg) (id id2 : String)
    (st st2 : Store) (t t2 : Nat) (o : AdmitOutcome) (hne : id2 ≠ id)
    (h : canActivate cfg (.up st) t id = (o, .up st2)) :
    storeGet st2 t2 (rateLimitKey id2) = storeGet st t2 (rateLimitKey id2) ∧
    storeGet st2 t2 (blockedKey id2) = storeGet st t2 (blockedKey id2) := by
  constructor
  · unfold storeGet
    rw [canActivate_lookup_ne cfg id st st2 t (rateLimitKey id2)
      (rateLimitKey_inj id2 id hne) (fun hc => rateLimitKey_ne_blockedKey
        id2 id hc) o h]
  · unfold storeGet
    rw [canActivate_lookup_ne cfg id st st2 t (blockedKey id2)
      (fun hc => rateLimitKey_ne_blockedKey id id2 hc.symm)
      (blockedKey_inj id2 id hne) o h]

/-- The window-counter state does not disturb the block key. -/
theorem lookup_windowState_blocked (id : String) (st : Store) (e1 : Nat)
    (k : Int) : (windowState id st e1 k).lookup (blockedKey id) =
      st.lookup (blockedKey id) := by
  have hne : blockedKey id ≠ rateLimitKey id :=
    Ne.symm (rateLimitKey_ne_blockedKey id id)
  simp only [windowState, List.lookup, beq_eq_false_iff_ne.mpr hne]
  exact lookup_storeDel_ne st (rateLimitKey id) (blockedKey id) hne

/-- Stacking window-counter states collapses to the outer one. -/
theorem windowState_windowState (id : String) (st : Store) (e1 e2 : Nat)
    (k j : Int) :
    windowState id (windowState id st e1 k) e2 j = windowState id st e2 j := by
  simp [windowState, storeDel_cons_self]

/-- From a window-counter state `k` with a dead block key, `m` further
requests with `k + m ≤ maxRequests` are all admitted and leave the counter
at `k + m` under the unchanged window expiry. -/
theorem guardRun_windowState (cfg : RateCfg) (id : String) (st : Store)
    (t : Nat) (hen : cfg.enabled = true) (hw : 1 ≤ cfg.windowSeconds)
    (hbl : storeGet st t (blockedKey id) = none) :
    ∀ (m k : Nat), 1 ≤ k → k + m ≤ cfg.maxRequests →
      (∀ o ∈ (guardRun cfg
          (.up (windowState id st (t + cfg.windowSeconds) (k : Int)))
          t id m).1, ∃ hd, o = .admitted (some hd)) ∧
      (guardRun cfg
          (.up (windowState id st (t + cfg.windowSeconds) (k : Int)))
          t id m).2 =
        .up (windowState id st (t + cfg.windowSeconds) ((k + m : Nat) : Int))
  | 0, k, hk, hle => by
      constructor
      · intro o ho
        simp [guardRun] at ho
      · simp [guardRun]
  | m + 1, k, hk, hle => by
      have hlk : (windowState id st (t + cfg.windowSeconds)
          (k : Int)).lookup (rateLimitKey id) =
          some ⟨.rint (k : Int), some (t + cfg.windowSeconds)⟩ := by
        simp [windowState, List.lookup]
      have hbl2 : storeGet (windowState id st (t + cfg.windowSeconds)
          (k : Int)) t (blockedKey id) = none := by
        unfold storeGet
        rw [lookup_windowState_blocked]
        unfold storeGet at hbl
        exact hbl
      have hmid := canActivate_mid cfg id
        (windowState id st (t + cfg.windowSeconds) (k : Int))
        t (t + cfg.windowSeconds) (k : Int) hen
        (by exact_mod_cast hk) (by
          have : k + 1 ≤ cfg.maxRequests := by omega
          exact_mod_cast this) hlk (by omega) hbl2
      rw [windowState_windowState] at hmid
      have hcast : ((k : Int) + 1) = ((k + 1 : Nat) : Int) := by push_cast; ring
      rw [hcast] at hmid
      have ihres := guardRun_windowState cfg id st t hen hw hbl m (k + 1)
        (by omega) (by omega)
      constructor
      · intro o ho
        simp only [guardRun, hmid] at ho
        rcases List.mem_cons.mp ho with h1 | h2
        · exact ⟨_, h1⟩
        · exact ihres.1 o h2
      · have harith : k + 1 + m = k + (m + 1) := by omega
        simp only [guardRun, hmid]
        rw [ihres.2, harith]

/-- Starting from dead window and block keys, the first `n ≤ maxRequests`
same-identifier requests of a window are all admitted. -/
theorem guardRun_all_admitted (cfg : RateCfg) (id : String) (st : Store)
    (t : Nat) (n : Nat) (hen : cfg.enabled = true)
    (hw : 1 ≤ cfg.windowSeconds)
    (hrl : storeGet st t (rateLimitKey id) = none)
    (hbl : storeGet st t (blockedKey id) = none)
    (hn : n ≤ cfg.maxRequests) :
    ∀ o ∈ (guardRun cfg (.up st) t id n).1,
      ∃ hd, o = AdmitOutcome.admitted (some hd) := by
  cases n with
  | zero =>
      intro o ho
      simp [guardRun] at ho
  | succ m =>
      have hmax : 1 ≤ cfg.maxRequests := by omega
      have hstart := canActivate_start cfg id st t hen hmax hrl hbl
      have hrest := guardRun_windowState cfg id st t hen hw hbl m 1
        (le_refl 1) (by omega)
      intro o ho
      simp only [guardRun, hstart] at ho
      rcases List.mem_cons.mp ho with h1 | h2
      · exact ⟨_, h1⟩
      · exact hrest.1 o (by exact_mod_cast h2)


/-- **C3 counterexample**: with `maxRequests = 1`, `windowSeconds = 10`,
`blockDurationSeconds = 2`, the second request at `t = 0` is rejected and a
2-second block is set; at `t = 3` the block key is already dead, yet the
request is rejected again (and re-blocked), because the still-live window
counter is re-incremented past the maximum.  Admission therefore does not
resume when the block TTL alone elapses. -/
theorem c3_counterexample :
    canActivate { enabled := true, maxRequests := 1, windowSeconds := 10, blockDurationSeconds := 2 } (.up []) 0 "a" =
      (.admitted (some (0, 10000)),
       .up [("rate_limit:a", ⟨.rint 1, some 10⟩)]) ∧
    canActivate { enabled := true, maxRequests := 1, windowSeconds := 10, blockDurationSeconds := 2 }
      (.up [("rate_limit:a", ⟨.rint 1, some 10⟩)]) 0 "a" =
      (.rejected 2,
       .up [("blocked:a", ⟨.rstr "1", some 2⟩),
            ("rate_limit:a", ⟨.rint 2, some 10⟩)]) ∧
    storeGet [("blocked:a", ⟨.rstr "1", some 2⟩),
              ("rate_limit:a", ⟨.rint 2, some 10⟩)] 3 (blockedKey "a") =
      none ∧
    (canActivate { enabled := true, maxRequests := 1, windowSeconds := 10, blockDurationSeconds := 2 }
      (.up [("blocked:a", ⟨.rstr "1", some 2⟩),
            ("rate_limit:a", ⟨.rint 2, some 10⟩)]) 3 "a").1 =
      .rejected 2 :=
  ⟨rfl, rfl, rfl, rfl⟩

/-- **C3** (amended): rate admission with the guard enabled over a healthy
store.  (i) Starting from dead window and block keys, the first `n ≤
maxRequests` same-identifier requests of a window are all admitted.  (ii) A
request on dead window and block keys is admitted with remaining quota
`maxRequests - 1`, the counter is set to `1`, and the window TTL is stamped
— this is also the resumption case: once both the block TTL and the window
have elapsed, admission resumes.  (iii) A mid-window request under a dead
block key with post-increment count `k + 1 ≤ maxRequests` is admitted and
the window expiry is left unchanged (the TTL is set only on the very first
increment).  (iv) When the post-increment count exceeds `maxRequests`, the
request is rejected with `retryAfter = blockDurationSeconds` and a block
key with that TTL is established.  (v) While the block key is live, the
request is rejected with the block's remaining TTL and the store is
untouched.  (vi) Requests from a different identifier never change either
of this identifier's keys. -/
theorem c3_rate_admission :
    (∀ (cfg : RateCfg) (id : String) (st : Store) (t n : Nat),
      cfg.enabled = true → 1 ≤ cfg.windowSeconds →
      storeGet st t (rateLimitKey id) = none →
      storeGet st t (blockedKey id) = none → n ≤ cfg.maxRequests →
      ∀ o ∈ (guardRun cfg (.up st) t id n).1,
        ∃ hd, o = AdmitOutcome.admitted (some hd)) ∧
    (∀ (cfg : RateCfg) (id : String) (st : Store) (t : Nat),
      cfg.enabled = true → 1 ≤ cfg.maxRequests →
      storeGet st t (rateLimitKey id) = none →
      storeGet st t (blockedKey id) = none →
      canActivate cfg (.up st) t id =
        (.admitted (some ((cfg.maxRequests : Int) - 1,
          (t : Int) * 1000 + (cfg.windowSeconds : Int) * 1000)),
         .up (windowState id st (t + cfg.windowSeconds) 1))) ∧
    (∀ (cfg : RateCfg) (id : String) (st : Store) (t t0 : Nat) (k : Int),
      cfg.enabled = true → 1 ≤ k → k + 1 ≤ (cfg.maxRequests : Int) →
      st.lookup (rateLimitKey id) = some ⟨.rint k, some t0⟩ → t < t0 →
      storeGet st t (blockedKey id) = none →
      canActivate cfg (.up st) t id =
        (.admitted (some ((cfg.maxRequests : Int) - (k + 1),
          (t : Int) * 1000 + ((t0 : Int) - t) * 1000)),
         .up (windowState id st t0 (k + 1)))) ∧
    (∀ (cfg : RateCfg) (id : String) (st : Store) (t t0 : Nat) (k : Int),
      cfg.enabled = true → 1 ≤ k → (cfg.maxRequests : Int) < k + 1 →
      st.lookup (rateLimitKey id) = some ⟨.rint k, some t0⟩ → t < t0 →
      storeGet st t (blockedKey id) = none →
      canActivate cfg (.up st) t id =
        (.rejected (cfg.blockDurationSeconds : Int),
         .up (storeSetex (windowState id st t0 (k + 1)) t (blockedKey id)
           cfg.blockDurationSeconds (.rstr "1")))) ∧
    (∀ (cfg : RateCfg) (st : Store) (t : Nat) (id : String) (v : RVal),
      cfg.enabled = true → storeGet st t (blockedKey id) = some v →
      canActivate cfg (.up st) t id =
        (.rejected (storeTtl st t (blockedKey id)), .up st)) ∧
    (∀ (cfg : RateCfg) (id id2 : String) (st st2 : Store) (t t2 : Nat)
        (o : AdmitOutcome), id2 ≠ id →
      canActivate cfg (.up st) t id = (o, .up st2) →
      storeGet st2 t2 (rateLimitKey id2) = storeGet st t2 (rateLimitKey id2) ∧
      storeGet st2 t2 (blockedKey id2) = storeGet st t2 (blockedKey id2)) := by
  refine ⟨?_, ?_, ?_, ?_, ?_, ?_⟩
  · intro cfg id st t n hen hw hrl hbl hn
    exact guardRun_all_admitted cfg id st t n hen hw hrl hbl hn
  · intro cfg id st t hen hmax hrl hbl
    exact canActivate_start cfg id st t hen hmax hrl hbl
  · intro cfg id st t t0 k hen hk hcnt hlk hlive hbl
    exact canActivate_mid cfg id st t t0 k hen hk hcnt hlk hlive hbl
  · intro cfg id st t t0 k hen hk hover hlk hlive hbl
    exact canActivate_reject cfg id st t t0 k hen hk hover hlk hlive hbl
  · intro cfg st t id v hen hbl
    exact canActivate_blocked cfg st t id hen v hbl
  · intro cfg id id2 st st2 t t2 o hne h
    exact canActivate_preserves_other cfg id id2 st st2 t t2 o hne h

/-- **C3 witness**. -/
theorem c3_rate_admission_witness :
    canActivate { enabled := true, maxRequests := 2, windowSeconds := 10, blockDurationSeconds := 5 } (.up []) 0 "a" =
      (.admitted (some (((2 : Nat) : Int) - 1,
        ((0 : Nat) : Int) * 1000 + ((10 : Nat) : Int) * 1000)),
       .up (windowState "a" [] (0 + 10) 1)) ∧
    canActivate { enabled := true, maxRequests := 2, windowSeconds := 10, blockDurationSeconds := 5 }
      (.up [(rateLimitKey "a", ⟨.rint 1, some 10⟩)]) 1 "a" =
      (.admitted (some (((2 : Nat) : Int) - (1 + 1),
        ((1 : Nat) : Int) * 1000 + (((10 : Nat) : Int) - 1) * 1000)),
       .up (windowState "a" [(rateLimitKey "a", ⟨.rint 1, some 10⟩)] 10
         (1 + 1))) ∧
    canActivate { enabled := true, maxRequests := 2, windowSeconds := 10, blockDurationSeconds := 5 }
      (.up [(rateLimitKey "a", ⟨.rint 2, some 10⟩)]) 1 "a" =
      (.rejected (((5 : Nat) : Int)),
       .up (storeSetex
         (windowState "a" [(rateLimitKey "a", ⟨.rint 2, some 10⟩)] 10 (2 + 1))
         1 (blockedKey "a") 5 (.rstr "1"))) ∧
    canActivate { enabled := true, maxRequests := 2, windowSeconds := 10, blockDurationSeconds := 5 }
      (.up [(blockedKey "a", ⟨.rstr "1", some 5⟩)]) 0 "a" =
      (.rejected (storeTtl [(blockedKey "a", ⟨.rstr "1", some 5⟩)] 0
        (blockedKey "a")),
       .up [(blockedKey "a", ⟨.rstr "1", some 5⟩)]) ∧
    (storeGet (windowState "a" [] (0 + 10) 1) 0 (rateLimitKey "b") =
       storeGet ([] : Store) 0 (rateLimitKey "b") ∧
     storeGet (windowState "a" [] (0 + 10) 1) 0 (blockedKey "b") =
       storeGet ([] : Store) 0 (blockedKey "b")) :=
  ⟨c3_rate_admission.2.1
     { enabled := true, maxRequests := 2, windowSeconds := 10, blockDurationSeconds := 5 } "a" [] 0 rfl (by decide) rfl rfl,
   c3_rate_admission.2.2.1
     { enabled := true, maxRequests := 2, windowSeconds := 10, blockDurationSeconds := 5 } "a"
     [(rateLimitKey "a", ⟨.rint 1, some 10⟩)] 1 10 1 rfl (by decide)
     (by decide) rfl (by decide) rfl,
   c3_rate_admission.2.2.2.1
     { enabled := true, maxRequests := 2, windowSeconds := 10, blockDurationSeconds := 5 } "a"
     [(rateLimitKey "a", ⟨.rint 2, some 10⟩)] 1 10 2 rfl (by decide)
     (by decide) rfl (by decide) rfl,
   c3_rate_admission.2.2.2.2.1
     { enabled := true, maxRequests := 2, windowSeconds := 10, blockDurationSeconds := 5 }
     [(blockedKey "a", ⟨.rstr "1", some 5⟩)] 0 "a" (.rstr "1") rfl rfl,
   c3_rate_admission.2.2.2.2.2
     { enabled := true, maxRequests := 2, windowSeconds := 10, blockDurationSeconds := 5 } "a" "b" []
     (windowState "a" [] (0 + 10) 1) 0 0
     (.admitted (some (((2 : Nat) : Int) - 1,
       ((0 : Nat) : Int) * 1000 + ((10 : Nat) : Int) * 1000)))
     (by decide) (by decide)⟩

/-- **C8 witness**. -/
theorem c8_fail_open_witness :
    canActivate {} .down 0 "ip:1" = (.admitted none, .down) ∧
    canActivate {} .disabled 7 "ip:1" =
      (.admitted (some ((20 : Int), (7 : Int) * 1000 + (300 : Int) * 1000)),
       .disabled) :=
  ⟨c8_fail_open.1 {} 0 "ip:1", c8_fail_open.2.2 {} 7 "ip:1" rfl⟩

end SignalBox
